import Mathlib

/-!
Verification development for the transactional storage core of the
`sql_lite` repository (Go).  The definitions below are shallow embeddings of
the Go sources:

* `arc_cache.go` — the ARC page cache (`ARCCache.Get`, `ARCCache.Put`,
  `ARCCache.replace`).  The Go code stores `*list.Element` values from
  `container/list`; its aliasing behaviour is modelled exactly:
  `List.PushFront(v)` always allocates a fresh element whose `Value` is `v`
  (so pushing an existing `*list.Element` wraps it), `List.Remove(e)` and
  `List.MoveToFront(e)` are no-ops when `e.list` is not the receiver, and a
  failing type assertion `e.Value.(*arcEntry)` panics.
* the `Pager` (`GetPage`, `WritePage`, `FlushDirtyPages`) from the unnamed
  source file `part_013` (second Pager definition, the one cited by the
  claims).
* `build_release.go` — `TransactionEngine.AcquireLock` / `ReleaseLock` /
  `ReleaseAllLocks`.
* `header.go` — `DatabaseHeader.Bytes`, `ReadDatabaseHeader`,
  `DefaultDatabaseHeader`.
* `ParseDSN` from the unnamed source file `part_010` (modelled from the
  parsed-URL structure onwards; `url.Parse` itself is standard library).
* `transaction_manager.go` — `TransactionManager.Recover` (a stub in the
  source: it logs and returns `nil`, applying no WAL frames).

Machine integers: the Go code uses `int` for list lengths and the ARC
target `p`; all arithmetic stays far below any overflow bound on the traces
considered, and `max(0, p-k)` is modelled by truncated `Nat` subtraction,
which agrees with the Go expression.  Go integer division by zero panics and
is modelled by `goDiv`.
-/

/-- A Go panic reachable in the modelled code: a failing interface type
assertion, a nil-pointer dereference, or integer division by zero. -/
inductive GoPanic where
  | typeAssert
  | nilDeref
  | divByZero
deriving DecidableEq

/-- The `Value any` field of a `container/list` element as used by
`arc_cache.go`: either a `*arcEntry` (page key and payload) or a
`*list.Element` (the wrapper produced by pushing an element value). -/
inductive EVal where
  | entry (key : Nat) (val : List Nat)
  | ref (eid : Nat)
deriving DecidableEq

/-- Which of the four ARC lists an element currently belongs to. -/
inductive ListTag where
  | t1
  | t2
  | b1
  | b2
deriving DecidableEq

/-- A heap-allocated `container/list` element: its `Value` and the list it
belongs to (`none` models `e.list == nil`, i.e. a detached element). -/
structure GoElem where
  value : EVal
  owner : Option ListTag
deriving DecidableEq

/-- State of an `ARCCache` (`arc_cache.go`): capacity, adaptive target `p`,
the four lists (element ids, most-recently-used first), the four hash
indices (page id to element id), and the element heap (element id is the
index at which the element was allocated). -/
structure ArcState where
  capacity : Nat
  p : Nat
  t1L : List Nat
  t2L : List Nat
  b1L : List Nat
  b2L : List Nat
  t1M : List (Nat × Nat)
  t2M : List (Nat × Nat)
  b1M : List (Nat × Nat)
  b2M : List (Nat × Nat)
  elems : List GoElem
deriving DecidableEq

/-- `NewARCCache(capacity)`: all lists and maps empty, `p = 0`.  The Go
constructor panics on `capacity <= 0`; every claim below uses a positive
capacity. -/
def newARCCache (cap : Nat) : ArcState :=
  ⟨cap, 0, [], [], [], [], [], [], [], [], []⟩

/-- Go map assignment `m[k] = v`: replace the binding if present, else add. -/
def mapPut (m : List (Nat × Nat)) (k v : Nat) : List (Nat × Nat) :=
  match m with
  | [] => [(k, v)]
  | kv :: rest => if kv.1 = k then (k, v) :: rest else kv :: mapPut rest k v

/-- Go map deletion `delete(m, k)`. -/
def mapDel (m : List (Nat × Nat)) (k : Nat) : List (Nat × Nat) :=
  match m with
  | [] => []
  | kv :: rest => if kv.1 = k then rest else kv :: mapDel rest k

/-- `l.Remove(e)` from `container/list`: removes `e` and clears `e.list`
only when `e.list` is the receiver; otherwise a no-op.  Returns the updated
id list and heap. -/
def goRemove (lst : List Nat) (tag : ListTag) (eid : Nat) (es : List GoElem) :
    List Nat × List GoElem :=
  match es[eid]? with
  | some e =>
      if e.owner = some tag then (lst.erase eid, es.set eid { e with owner := none })
      else (lst, es)
  | none => (lst, es)

/-- `l.PushFront(v)` from `container/list`: always allocates a fresh element
(with `Value = v`, belonging to `tag`) at the front.  Returns the id list,
the heap, and the new element's id. -/
def goPushFront (lst : List Nat) (tag : ListTag) (v : EVal) (es : List GoElem) :
    List Nat × List GoElem × Nat :=
  (es.length :: lst, es ++ [⟨v, some tag⟩], es.length)

/-- `l.MoveToFront(e)`: a no-op when `e.list` is not the receiver. -/
def goMoveToFront (lst : List Nat) (tag : ListTag) (eid : Nat) (es : List GoElem) :
    List Nat :=
  match es[eid]? with
  | some e => if e.owner = some tag then eid :: lst.erase eid else lst
  | none => lst

/-- `l.Back()`: the least-recently-used element, `nil` when empty. -/
def goBack (lst : List Nat) : Option Nat :=
  lst.getLast?

/-- The type assertion `e.Value.(*arcEntry)`: panics when the element's
value is a wrapped `*list.Element`, and models a nil dereference when the
element id is invalid. -/
def asEntry (es : List GoElem) (eid : Nat) : Except GoPanic (Nat × List Nat) :=
  match es[eid]? with
  | some e =>
      match e.value with
      | .entry k v => .ok (k, v)
      | .ref _ => .error .typeAssert
  | none => .error .nilDeref

/-- Go integer division, which panics on a zero divisor. -/
def goDiv (a b : Nat) : Except GoPanic Nat :=
  if b = 0 then .error .divByZero else .ok (a / b)

/-- `ARCCache.replace(b2Hit)` from `arc_cache.go`: evicts the LRU of `T1`
into `B1` when `len(t1) > 0 && (len(t1) > p || (len(t1) == p && len(b2) > 0
&& !b2Hit))`; otherwise, when `T2` is non-empty, evicts the LRU of `T2`
into `B2`.  The eviction pushes the evicted `*list.Element` itself onto the
ghost list (producing a wrapper element) and indexes the detached element
in the ghost map, exactly as the Go code does. -/
def arcReplace (s : ArcState) (b2Hit : Bool) : Except GoPanic ArcState :=
  if 0 < s.t1L.length ∧
      (s.p < s.t1L.length ∨
        (s.t1L.length = s.p ∧ 0 < s.b2L.length ∧ b2Hit = false)) then
    match goBack s.t1L with
    | none => .error .nilDeref
    | some eid => do
        let (k, _) ← asEntry s.elems eid
        let m := mapDel s.t1M k
        let (t1L', es1) := goRemove s.t1L .t1 eid s.elems
        let (b1L', es2, _) := goPushFront s.b1L .b1 (.ref eid) es1
        .ok { s with t1M := m, t1L := t1L', b1L := b1L',
                     b1M := mapPut s.b1M k eid, elems := es2 }
  else if 0 < s.t2L.length then
    match goBack s.t2L with
    | none => .error .nilDeref
    | some eid => do
        let (k, _) ← asEntry s.elems eid
        let m := mapDel s.t2M k
        let (t2L', es1) := goRemove s.t2L .t2 eid s.elems
        let (b2L', es2, _) := goPushFront s.b2L .b2 (.ref eid) es1
        .ok { s with t2M := m, t2L := t2L', b2L := b2L',
                     b2M := mapPut s.b2M k eid, elems := es2 }
  else
    .ok s

/-- `ARCCache.Get(id)` from `arc_cache.go`.  The T1-hit branch pushes the
element itself onto `t2_lru` (a wrapper) and indexes the now-detached
element in `t2_map`; the ghost-hit branches adapt `p`, call `replace`, and
promote a fresh element carrying the entry into `T2`. -/
def arcGet (s : ArcState) (id : Nat) : Except GoPanic (Option (List Nat) × ArcState) :=
  match List.lookup id s.t1M with
  | some eid =>
      let (t1L', es1) := goRemove s.t1L .t1 eid s.elems
      let (t2L', es2, _) := goPushFront s.t2L .t2 (.ref eid) es1
      let s' := { s with t1L := t1L', t1M := mapDel s.t1M id,
                         t2L := t2L', t2M := mapPut s.t2M id eid, elems := es2 }
      do
        let (_, v) ← asEntry es2 eid
        .ok (some v, s')
  | none =>
  match List.lookup id s.t2M with
  | some eid => do
      let t2L' := goMoveToFront s.t2L .t2 eid s.elems
      let (_, v) ← asEntry s.elems eid
      .ok (some v, { s with t2L := t2L' })
  | none =>
  match List.lookup id s.b1M with
  | some eid => do
      let d ← goDiv s.b2L.length s.b1L.length
      let s1 := { s with p := min s.capacity (s.p + max 1 d) }
      let s2 ← arcReplace s1 false
      let (k, v) ← asEntry s2.elems eid
      let (b1L', es1) := goRemove s2.b1L .b1 eid s2.elems
      let (t2L', es2, newId) := goPushFront s2.t2L .t2 (.entry k v) es1
      .ok (some v, { s2 with b1L := b1L', b1M := mapDel s2.b1M id,
                             t2L := t2L', t2M := mapPut s2.t2M id newId,
                             elems := es2 })
  | none =>
  match List.lookup id s.b2M with
  | some eid => do
      let d ← goDiv s.b1L.length s.b2L.length
      let s1 := { s with p := s.p - max 1 d }
      let s2 ← arcReplace s1 true
      let (k, v) ← asEntry s2.elems eid
      let (b2L', es1) := goRemove s2.b2L .b2 eid s2.elems
      let (t2L', es2, newId) := goPushFront s2.t2L .t2 (.entry k v) es1
      .ok (some v, { s2 with b2L := b2L', b2M := mapDel s2.b2M id,
                             t2L := t2L', t2M := mapPut s2.t2M id newId,
                             elems := es2 })
  | none => .ok (none, s)

/-- First half of the `len(t1)+len(b1) == capacity` block of
`ARCCache.Put`: when `len(t1) < capacity`, move the LRU of `B1` to `B2`
(the type assertion on the `B1` element panics on a wrapper, as in the Go
code). -/
def arcPutNewTrimB1 (s : ArcState) : Except GoPanic ArcState :=
  if s.t1L.length < s.capacity then
    match goBack s.b1L with
    | none => .error GoPanic.nilDeref
    | some old => do
        let (k, _) ← asEntry s.elems old
        let (b1L', es1) := goRemove s.b1L .b1 old s.elems
        let (b2L', es2, _) := goPushFront s.b2L .b2 (.ref old) es1
        .ok { s with b1M := mapDel s.b1M k, b1L := b1L', b2L := b2L',
                     b2M := mapPut s.b2M k old, elems := es2 }
  else .ok s

/-- Second half of the `len(t1)+len(b1) == capacity` block of
`ARCCache.Put`: move the LRU of `T1` to `B1` (a nil dereference when `T1`
is empty, since the Go code does not guard `Back()`). -/
def arcPutNewTrimT1 (s : ArcState) : Except GoPanic ArcState :=
  match goBack s.t1L with
  | none => .error GoPanic.nilDeref
  | some old => do
      let (k, _) ← asEntry s.elems old
      let (t1L', es1) := goRemove s.t1L .t1 old s.elems
      let (b1L', es2, _) := goPushFront s.b1L .b1 (.ref old) es1
      .ok { s with t1M := mapDel s.t1M k, t1L := t1L', b1L := b1L',
                   b1M := mapPut s.b1M k old, elems := es2 }

/-- The `len(t1)+len(b1) == capacity` block of `ARCCache.Put`, combining
the two moves above (a no-op otherwise). -/
def arcPutNewStage1 (s : ArcState) : Except GoPanic ArcState :=
  if s.t1L.length + s.b1L.length = s.capacity then do
    let sa ← arcPutNewTrimB1 s
    arcPutNewTrimT1 sa
  else .ok s

/-- The `len(t1)+len(t2) >= capacity` guard of `ARCCache.Put`: call
`replace(false)` when the resident lists are at or over capacity. -/
def arcPutNewGuard (s : ArcState) : Except GoPanic ArcState :=
  if s.capacity ≤ s.t1L.length + s.t2L.length then arcReplace s false
  else .ok s

/-- The "new page" tail of `ARCCache.Put`: the capacity block, then the
replace guard, then push the new entry onto `T1`. -/
def arcPutNew (s : ArcState) (id : Nat) (page : List Nat) : Except GoPanic ArcState := do
  let s1 ← arcPutNewStage1 s
  let s2 ← arcPutNewGuard s1
  let (t1L', es, newId) := goPushFront s2.t1L .t1 (.entry id page) s2.elems
  .ok { s2 with t1L := t1L', t1M := mapPut s2.t1M id newId, elems := es }

/-- `ARCCache.Put(id, page)` from `arc_cache.go`.  The T1-hit branch moves
the key to `T2` with a fresh entry; the T2-hit branch overwrites the
element's `Value` in place (`elem.Value = entry`); ghost hits adapt `p`,
call `replace`, and promote; a new key goes through `arcPutNew`. -/
def arcPut (s : ArcState) (id : Nat) (page : List Nat) : Except GoPanic ArcState :=
  match List.lookup id s.t1M with
  | some eid =>
      let (t1L', es1) := goRemove s.t1L .t1 eid s.elems
      let (t2L', es2, newId) := goPushFront s.t2L .t2 (.entry id page) es1
      .ok { s with t1L := t1L', t1M := mapDel s.t1M id,
                   t2L := t2L', t2M := mapPut s.t2M id newId, elems := es2 }
  | none =>
  match List.lookup id s.t2M with
  | some eid =>
      let t2L' := goMoveToFront s.t2L .t2 eid s.elems
      let es' :=
        match s.elems[eid]? with
        | some e => s.elems.set eid { e with value := .entry id page }
        | none => s.elems
      .ok { s with t2L := t2L', elems := es' }
  | none =>
  match List.lookup id s.b1M with
  | some eid => do
      let d ← goDiv s.b2L.length s.b1L.length
      let s1 := { s with p := min s.capacity (s.p + max 1 d) }
      let s2 ← arcReplace s1 false
      let (b1L', es1) := goRemove s2.b1L .b1 eid s2.elems
      let (t2L', es2, newId) := goPushFront s2.t2L .t2 (.entry id page) es1
      .ok { s2 with b1L := b1L', b1M := mapDel s2.b1M id,
                    t2L := t2L', t2M := mapPut s2.t2M id newId, elems := es2 }
  | none =>
  match List.lookup id s.b2M with
  | some eid => do
      let d ← goDiv s.b1L.length s.b2L.length
      let s1 := { s with p := s.p - max 1 d }
      let s2 ← arcReplace s1 true
      let (b2L', es1) := goRemove s2.b2L .b2 eid s2.elems
      let (t2L', es2, newId) := goPushFront s2.t2L .t2 (.entry id page) es1
      .ok { s2 with b2L := b2L', b2M := mapDel s2.b2M id,
                    t2L := t2L', t2M := mapPut s2.t2M id newId, elems := es2 }
  | none => arcPutNew s id page

/-- A cache-level operation: `Get(id)` or `Put(id, page)`. -/
inductive CacheOp where
  | get (id : Nat)
  | put (id : Nat) (page : List Nat)
deriving DecidableEq

/-- Run a sequence of cache operations; a Go panic aborts the run. -/
def runCache (s : ArcState) : List CacheOp → Except GoPanic ArcState
  | [] => .ok s
  | .get i :: rest => do
      let (_, s') ← arcGet s i
      runCache s' rest
  | .put i pg :: rest => do
      let s' ← arcPut s i pg
      runCache s' rest

/-- A file operation performed by the pager on its `File` handle, recorded
in order: `ReadAt`, `WriteAt`, `Sync`. -/
inductive FileEv where
  | readAt (off len : Nat)
  | writeAt (off : Nat) (data : List Nat)
  | sync
deriving DecidableEq

/-- The error values the modelled pager returns (Go returns `fmt.Errorf`
strings; only the identity of the error matters here). -/
inductive PagerErr where
  | invalidPageId
  | sizeMismatch
  | dirtyMissing
deriving DecidableEq

/-- State of the `Pager` from `part_013` (second definition, the one the
claims cite): page size, logical database size in pages, the file contents,
the ARC cache, the dirty page set, and the log of file operations. -/
structure PagerState where
  pageSize : Nat
  dbSize : Nat
  fileData : List Nat
  cache : ArcState
  dirty : List Nat
  events : List FileEv
deriving DecidableEq

/-- `NewPager`: the database size is the file size divided by the page
size; cache, dirty set and event log start empty.  (The Go constructor
also validates that the page size is a power of two in 512..65536 and
defaults the cache capacity; the claims only concern valid pagers.) -/
def freshPager (ps : Nat) (file : List Nat) (cachePages : Nat) : PagerState :=
  { pageSize := ps, dbSize := file.length / ps, fileData := file,
    cache := newARCCache cachePages, dirty := [], events := [] }

/-- Number of bytes `File.ReadAt` actually delivers for a read of `len`
bytes at `off` (a short read past end-of-file returns fewer with `io.EOF`). -/
def fileReadLen (file : List Nat) (off len : Nat) : Nat :=
  min len (file.length - off)

/-- Go `copy(dst, src)` into a fresh zeroed buffer of length `dstLen`. -/
def goCopy (dstLen : Nat) (src : List Nat) : List Nat :=
  src.take dstLen ++ List.replicate (dstLen - src.length) 0

/-- `Pager.GetPage(id)` from `part_013`: page 0 is rejected before any file
access; a cache hit returns the cached page; a miss reads `pageSize` bytes
at `(id-1)*pageSize`, zero-fills past end-of-file, stores the buffer in the
cache and returns it.  The returned state is paired with the result;
the state is unchanged on the `id = 0` error. -/
def getPage (s : PagerState) (id : Nat) :
    Except GoPanic (Except PagerErr (List Nat) × PagerState) :=
  if id = 0 then .ok (.error .invalidPageId, s)
  else do
    let (hit, c1) ← arcGet s.cache id
    match hit with
    | some pg => .ok (.ok pg, { s with cache := c1 })
    | none =>
        let off := (id - 1) * s.pageSize
        let n := fileReadLen s.fileData off s.pageSize
        let buf := (s.fileData.drop off).take s.pageSize ++ List.replicate (s.pageSize - n) 0
        let s1 := { s with cache := c1, events := s.events ++ [FileEv.readAt off s.pageSize] }
        do
          let c2 ← arcPut s1.cache id buf
          .ok (.ok buf, { s1 with cache := c2 })

/-- Add a page id to the dirty set (Go `map[PageID]struct{}`). -/
def dirtyAdd (d : List Nat) (id : Nat) : List Nat :=
  if id ∈ d then d else id :: d

/-- `Pager.WritePage(id, data)` from `part_013`: rejects page 0 and a buffer
whose length as a `uint16` differs from the page size, copies the first
`pageSize` bytes into a fresh buffer, puts it in the cache, marks the page
dirty and grows `dbSize`.  On an error the state is unchanged. -/
def writePage (s : PagerState) (id : Nat) (data : List Nat) :
    Except GoPanic (Except PagerErr PagerState) :=
  if id = 0 then .ok (.error .invalidPageId)
  else if ¬ data.length % 65536 = s.pageSize % 65536 then .ok (.error .sizeMismatch)
  else do
    let pageCopy := goCopy s.pageSize data
    let c ← arcPut s.cache id pageCopy
    .ok (.ok { s with cache := c, dirty := dirtyAdd s.dirty id,
                      dbSize := max s.dbSize id })

/-- Overwrite `data.length` bytes of `file` at offset `off`, extending the
file with zeros first when it is shorter than `off` (the behaviour of
`WriteAt` on a regular file). -/
def writeBytes (file : List Nat) (off : Nat) (data : List Nat) : List Nat :=
  let f := if file.length < off then file ++ List.replicate (off - file.length) 0 else file
  f.take off ++ data ++ f.drop (off + data.length)

/-- Insert into an ascending list (used to model `sort.Slice` ascending). -/
def insertAsc (x : Nat) : List Nat → List Nat
  | [] => [x]
  | y :: ys => if x ≤ y then x :: y :: ys else y :: insertAsc x ys

/-- Sort page ids ascending, as `FlushDirtyPages` does before writing. -/
def sortAsc (l : List Nat) : List Nat :=
  l.foldr insertAsc []

/-- The per-page loop of `FlushDirtyPages`: look each dirty page up in the
cache (a cache `Get`, which can itself mutate the cache or panic), then
`WriteAt` its bytes at the page offset.  A missing page aborts with an
error, returning the state mutated so far. -/
def flushPages (s : PagerState) : List Nat → Except GoPanic (PagerState × Option PagerErr)
  | [] => .ok (s, none)
  | id :: rest => do
      let (pg, c') ← arcGet s.cache id
      match pg with
      | none => .ok ({ s with cache := c' }, some .dirtyMissing)
      | some page =>
          let off := (id - 1) * s.pageSize
          flushPages { s with cache := c',
                              fileData := writeBytes s.fileData off page,
                              events := s.events ++ [FileEv.writeAt off page] } rest

/-- `Pager.FlushDirtyPages` from `part_013`: snapshot the dirty ids, sort
ascending, write each page (fetched through the cache) to the file, `Sync`,
and only then clear the dirty set.  Errors are returned with the state as
mutated so far (the dirty set is not cleared). -/
def flushDirtyPages (s : PagerState) : Except GoPanic (PagerState × Option PagerErr) := do
  let (s1, e) ← flushPages s (sortAsc s.dirty)
  match e with
  | some err => .ok (s1, some err)
  | none => .ok ({ s1 with events := s1.events ++ [FileEv.sync], dirty := [] }, none)

/-- A pager-level operation: `GetPage`, `WritePage` or `FlushDirtyPages`. -/
inductive PagerOp where
  | get (id : Nat)
  | write (id : Nat) (data : List Nat)
  | flush
deriving DecidableEq

/-- Run one pager operation; result values are discarded, error values leave
the state as the operation left it, a Go panic aborts. -/
def runPagerOp (s : PagerState) : PagerOp → Except GoPanic PagerState
  | .get i => do
      let (_, s') ← getPage s i
      .ok s'
  | .write i d => do
      let r ← writePage s i d
      match r with
      | .ok s' => .ok s'
      | .error _ => .ok s
  | .flush => do
      let (s', _) ← flushDirtyPages s
      .ok s'

/-- Run a sequence of pager operations. -/
def runPager (s : PagerState) : List PagerOp → Except GoPanic PagerState
  | [] => .ok s
  | op :: rest => do
      let s' ← runPagerOp s op
      runPager s' rest

/-- The lock levels of `vfs.go` (`NoLock`, `SharedLock`, `ReservedLock`,
`PendingLock`, `ExclusiveLock`). -/
inductive LockKind where
  | noLock
  | shared
  | reserved
  | pending
  | exclusive
deriving DecidableEq

/-- State of `TransactionEngine` (`build_release.go`): for each owner the
counts stored under `SharedLock` and `ExclusiveLock` in its lock map.  An
owner present with counts `(0, 0)` models the empty inner map the Go code
installs before the switch. -/
structure LockState where
  fileLocks : List (String × (Nat × Nat))
deriving DecidableEq

/-- The empty `TransactionEngine` lock table. -/
def newLockState : LockState := ⟨[]⟩

/-- Go map assignment keyed by owner string. -/
def lockPut (m : List (String × (Nat × Nat))) (o : String) (v : Nat × Nat) :
    List (String × (Nat × Nat)) :=
  match m with
  | [] => [(o, v)]
  | kv :: rest => if kv.1 = o then (o, v) :: rest else kv :: lockPut rest o v

/-- Go map deletion keyed by owner string. -/
def lockDel (m : List (String × (Nat × Nat))) (o : String) :
    List (String × (Nat × Nat)) :=
  match m with
  | [] => []
  | kv :: rest => if kv.1 = o then rest else kv :: lockDel rest o

/-- `TransactionEngine.isLockedByOthers`: some other owner holds an
exclusive lock (the Go method ignores its `lockType` parameter and checks
`ExclusiveLock` only). -/
def isLockedByOthers (st : LockState) (cur : String) : Bool :=
  st.fileLocks.any (fun kv => decide (¬ kv.1 = cur) && decide (0 < kv.2.2))

/-- `TransactionEngine.hasSharedLocksByOthers`: some other owner holds a
shared lock. -/
def hasSharedLocksByOthers (st : LockState) (cur : String) : Bool :=
  st.fileLocks.any (fun kv => decide (¬ kv.1 = cur) && decide (0 < kv.2.1))

/-- `TransactionEngine.AcquireLock(ownerID, lockType)` from
`build_release.go`.  The owner's inner map is created first; a shared lock
is then granted unconditionally (`ownerLocks[SharedLock]++`); an exclusive
lock is granted only when no other owner holds exclusive or shared; other
lock levels hit the `default` case and error.  Returns the error (if any)
and the updated table. -/
def acquireLock (st : LockState) (owner : String) (lt : LockKind) :
    Option String × LockState :=
  let m0 := if (List.lookup owner st.fileLocks).isSome then st.fileLocks
            else lockPut st.fileLocks owner (0, 0)
  let cur := (List.lookup owner m0).getD (0, 0)
  let st0 : LockState := ⟨m0⟩
  match lt with
  | .shared => (none, ⟨lockPut m0 owner (cur.1 + 1, cur.2)⟩)
  | .exclusive =>
      if isLockedByOthers st0 owner || hasSharedLocksByOthers st0 owner then
        (some "cannot acquire EXCLUSIVE lock: file is locked by others", st0)
      else (none, ⟨lockPut m0 owner (cur.1, 1)⟩)
  | _ => (some "unsupported lock type", st0)

/-- `TransactionEngine.ReleaseLock`: decrement a shared count or clear the
exclusive flag, deleting the owner's entry when both reach zero. -/
def releaseLock (st : LockState) (owner : String) (lt : LockKind) :
    Option String × LockState :=
  match List.lookup owner st.fileLocks with
  | none => (some "owner has no locks", st)
  | some cur =>
      let upd : Option (Nat × Nat) :=
        match lt with
        | .shared => some (if 0 < cur.1 then (cur.1 - 1, cur.2) else cur)
        | .exclusive => some (if 0 < cur.2 then (cur.1, 0) else cur)
        | _ => none
      match upd with
      | none => (some "unsupported lock type", st)
      | some v =>
          let m1 := lockPut st.fileLocks owner v
          if v.1 = 0 ∧ v.2 = 0 then (none, ⟨lockDel m1 owner⟩) else (none, ⟨m1⟩)

/-- `TransactionEngine.ReleaseAllLocks`: drop the owner's entry. -/
def releaseAllLocks (st : LockState) (owner : String) : Option String × LockState :=
  (none, ⟨lockDel st.fileLocks owner⟩)

/-- A lock-engine call. -/
inductive LockOp where
  | acquire (owner : String) (lt : LockKind)
  | release (owner : String) (lt : LockKind)
  | releaseAll (owner : String)
deriving DecidableEq

/-- Run a sequence of lock-engine calls, collecting each call's error
result (`none` = success) alongside the final table. -/
def runLocks (st : LockState) : List LockOp → List (Option String) × LockState
  | [] => ([], st)
  | op :: rest =>
      let (r, st') :=
        match op with
        | .acquire o lt => acquireLock st o lt
        | .release o lt => releaseLock st o lt
        | .releaseAll o => releaseAllLocks st o
      let (rs, stf) := runLocks st' rest
      (r :: rs, stf)

/-- The `DatabaseHeader` struct of `header.go`.  Byte-array fields are byte
lists; integer fields are naturals bounded by their Go types (see
`HeaderWF`). -/
structure DatabaseHeader where
  magicString : List Nat
  pageSize : Nat
  fileFormatWriteVersion : Nat
  fileFormatReadVersion : Nat
  reserved1 : Nat
  maxEmbeddedPayloadFrac : Nat
  minEmbeddedPayloadFrac : Nat
  leafEmbeddedPayloadFrac : Nat
  fileChangeCounter : Nat
  databaseSize : Nat
  firstFreelistTrunkPage : Nat
  totalFreelistPages : Nat
  schemaCookie : Nat
  schemaFormat : Nat
  defaultPageCacheSize : Nat
  vacuumMode : Nat
  applicationId : Nat
  userVersion : Nat
  incrementalVacuumPage : Nat
  versionValidFor : Nat
  sqliteVersion : Nat
  reserved2 : List Nat
deriving DecidableEq

/-- `binary.BigEndian.PutUint16`. -/
def be16 (v : Nat) : List Nat :=
  [v / 256 % 256, v % 256]

/-- `binary.BigEndian.PutUint32`. -/
def be32 (v : Nat) : List Nat :=
  [v / 16777216 % 256, v / 65536 % 256, v / 256 % 256, v % 256]

/-- `binary.BigEndian.Uint16` of a two-byte slice. -/
def rd16 (l : List Nat) : Nat :=
  l.getD 0 0 * 256 + l.getD 1 0

/-- `binary.BigEndian.Uint32` of a four-byte slice. -/
def rd32 (l : List Nat) : Nat :=
  l.getD 0 0 * 16777216 + l.getD 1 0 * 65536 + l.getD 2 0 * 256 + l.getD 3 0

/-- `DatabaseHeader.Bytes()` from `header.go`: the 100-byte buffer in the
order the Go method fills it.  Offsets: magic 0..15, page size 16..17,
write/read version 18/19, four single-byte fields 20..23, then thirteen
big-endian `uint32` fields at 24, 28, ..., 72 (note: `VacuumMode` at 52,
`ApplicationID` at 56, `UserVersion` at 60, `IncrementalVacuumPage` at 64,
`VersionValidFor` at 68, `SQLiteVersion` at 72), `Reserved2` at 76..95, and
bytes 96..99 never written (they stay zero from `make`). -/
def DatabaseHeader.bytes (h : DatabaseHeader) : List Nat :=
  goCopy 16 h.magicString ++ be16 h.pageSize ++
  [h.fileFormatWriteVersion, h.fileFormatReadVersion, h.reserved1,
   h.maxEmbeddedPayloadFrac, h.minEmbeddedPayloadFrac, h.leafEmbeddedPayloadFrac] ++
  be32 h.fileChangeCounter ++ be32 h.databaseSize ++
  be32 h.firstFreelistTrunkPage ++ be32 h.totalFreelistPages ++
  be32 h.schemaCookie ++ be32 h.schemaFormat ++ be32 h.defaultPageCacheSize ++
  be32 h.vacuumMode ++ be32 h.applicationId ++ be32 h.userVersion ++
  be32 h.incrementalVacuumPage ++ be32 h.versionValidFor ++
  be32 h.sqliteVersion ++ goCopy 20 h.reserved2 ++ [0, 0, 0, 0]

/-- The byte values of the string `"SQLite format 3"` (15 bytes). -/
def magicName : List Nat :=
  [83, 81, 76, 105, 116, 101, 32, 102, 111, 114, 109, 97, 116, 32, 51]

/-- Errors of `ReadDatabaseHeader`. -/
inductive HeaderErr where
  | pageTooSmall
  | invalidFileFormat
  | invalidPageSize
  | unsupportedVersion
deriving DecidableEq

/-- `ReadDatabaseHeader(page)` from `header.go`: checks length, magic, page
size (power of two between 512 and 65536 after decoding the stored value 1
as 65536), and format versions, then decodes the remaining fields at the
offsets the Go function uses (which mirror `Bytes`).  Returns the header
and the actual page size. -/
def readDatabaseHeader (page : List Nat) : Except HeaderErr (DatabaseHeader × Nat) :=
  if page.length < 100 then .error .pageTooSmall else
  let magic := page.take 16
  if ¬ (magic.take 15 = magicName ∧ magic.getD 15 0 = 0) then .error .invalidFileFormat else
  let ps := rd16 ((page.drop 16).take 2)
  let actual := if ps = 1 then 65536 else ps
  if actual < 512 ∨ 65536 < actual ∨ ¬ Nat.land actual (actual - 1) = 0 then
    .error .invalidPageSize
  else
  let wv := page.getD 18 0
  let rv := page.getD 19 0
  if 2 < wv ∨ 2 < rv ∨ wv = 0 ∨ rv = 0 then .error .unsupportedVersion else
  .ok ({ magicString := magic,
         pageSize := ps,
         fileFormatWriteVersion := wv,
         fileFormatReadVersion := rv,
         reserved1 := page.getD 20 0,
         maxEmbeddedPayloadFrac := page.getD 21 0,
         minEmbeddedPayloadFrac := page.getD 22 0,
         leafEmbeddedPayloadFrac := page.getD 23 0,
         fileChangeCounter := rd32 ((page.drop 24).take 4),
         databaseSize := rd32 ((page.drop 28).take 4),
         firstFreelistTrunkPage := rd32 ((page.drop 32).take 4),
         totalFreelistPages := rd32 ((page.drop 36).take 4),
         schemaCookie := rd32 ((page.drop 40).take 4),
         schemaFormat := rd32 ((page.drop 44).take 4),
         defaultPageCacheSize := rd32 ((page.drop 48).take 4),
         vacuumMode := rd32 ((page.drop 52).take 4),
         applicationId := rd32 ((page.drop 56).take 4),
         userVersion := rd32 ((page.drop 60).take 4),
         incrementalVacuumPage := rd32 ((page.drop 64).take 4),
         versionValidFor := rd32 ((page.drop 68).take 4),
         sqliteVersion := rd32 ((page.drop 72).take 4),
         reserved2 := (page.drop 76).take 20 }, actual)

/-- `DefaultDatabaseHeader(pageSize)` from `header.go`: magic plus versions
1/1 and payload fractions 64/32/32; every other field zero. -/
def defaultDatabaseHeader (pageSize : Nat) : DatabaseHeader :=
  { magicString := magicName ++ [0],
    pageSize := pageSize % 65536,
    fileFormatWriteVersion := 1,
    fileFormatReadVersion := 1,
    reserved1 := 0,
    maxEmbeddedPayloadFrac := 64,
    minEmbeddedPayloadFrac := 32,
    leafEmbeddedPayloadFrac := 32,
    fileChangeCounter := 0,
    databaseSize := 0,
    firstFreelistTrunkPage := 0,
    totalFreelistPages := 0,
    schemaCookie := 0,
    schemaFormat := 0,
    defaultPageCacheSize := 0,
    vacuumMode := 0,
    applicationId := 0,
    userVersion := 0,
    incrementalVacuumPage := 0,
    versionValidFor := 0,
    sqliteVersion := 0,
    reserved2 := List.replicate 20 0 }

/-- Well-formedness of a modelled `DatabaseHeader`: exactly the bounds the
Go struct types impose (`[16]byte`, `uint16`, `uint8`, `uint32`,
`[20]byte`). -/
def HeaderWF (h : DatabaseHeader) : Prop :=
  h.magicString.length = 16 ∧
  h.pageSize < 65536 ∧
  h.fileFormatWriteVersion < 256 ∧ h.fileFormatReadVersion < 256 ∧
  h.reserved1 < 256 ∧ h.maxEmbeddedPayloadFrac < 256 ∧
  h.minEmbeddedPayloadFrac < 256 ∧ h.leafEmbeddedPayloadFrac < 256 ∧
  h.fileChangeCounter < 4294967296 ∧ h.databaseSize < 4294967296 ∧
  h.firstFreelistTrunkPage < 4294967296 ∧ h.totalFreelistPages < 4294967296 ∧
  h.schemaCookie < 4294967296 ∧ h.schemaFormat < 4294967296 ∧
  h.defaultPageCacheSize < 4294967296 ∧ h.vacuumMode < 4294967296 ∧
  h.applicationId < 4294967296 ∧ h.userVersion < 4294967296 ∧
  h.incrementalVacuumPage < 4294967296 ∧ h.versionValidFor < 4294967296 ∧
  h.sqliteVersion < 4294967296 ∧
  h.reserved2.length = 20

/-- A parsed URL as `net/url.Parse` hands it to `ParseDSN` (`part_010`):
scheme, opaque part, host, path, and the query as a key/value list in
order.  (`runtime.GOOS` is taken to be a unix-like system, so the
Windows-only path branch is never taken; it does not affect option
handling.) -/
structure GoURL where
  scheme : String
  opq : String
  host : String
  path : String
  query : List (String × String)
deriving DecidableEq

/-- `url.Values.Get(key)`: the first value for the key, or `""`. -/
def queryGet (q : List (String × String)) (key : String) : String :=
  match q with
  | [] => ""
  | kv :: rest => if kv.1 = key then kv.2 else queryGet rest key

/-- The `DSNConfig` struct of `part_010` (`BusyTimeout` in milliseconds). -/
structure DSNConfig where
  path : String
  mode : String
  cache : String
  journalMode : String
  busyTimeoutMs : Int
  pageSize : Nat
  synchronous : String
  foreignKeys : Bool
deriving DecidableEq

/-- `strconv.Atoi`: an optional sign followed by at least one decimal
digit. -/
def goAtoi (s : String) : Except String Int :=
  let core (ds : List Char) (sign : Int) : Except String Int :=
    if ds = [] ∨ ¬ ds.all Char.isDigit then .error "invalid syntax"
    else .ok (sign * Int.ofNat (ds.foldl (fun a c => a * 10 + (c.toNat - 48)) 0))
  match s.toList with
  | '-' :: rest => core rest (-1)
  | '+' :: rest => core rest 1
  | l => core l 1

/-- `strconv.ParseUint(s, 10, 16)`: decimal digits only, value below
`2^16`. -/
def goParseUint16 (s : String) : Except String Nat :=
  let ds := s.toList
  if ds = [] ∨ ¬ ds.all Char.isDigit then .error "invalid syntax"
  else
    let v := ds.foldl (fun a c => a * 10 + (c.toNat - 48)) 0
    if 65536 ≤ v then .error "value out of range" else .ok v

/-- `strconv.ParseBool`. -/
def goParseBool (s : String) : Except String Bool :=
  if s = "1" ∨ s = "t" ∨ s = "T" ∨ s = "true" ∨ s = "TRUE" ∨ s = "True" then .ok true
  else if s = "0" ∨ s = "f" ∨ s = "F" ∨ s = "false" ∨ s = "FALSE" ∨ s = "False" then .ok false
  else .error "invalid syntax"

/-- `ParseDSN` from `part_010`, starting from the parsed URL: scheme must
be `file`; the path comes from the opaque part or the URL path; defaults
are `rwc`, `private`, `DELETE`, 5000 ms, `FULL`, no foreign keys, page
size 0 (unset); each recognized option is validated only when present and
non-empty.  No other query key is ever inspected. -/
def parseDSN (u : GoURL) : Except String DSNConfig :=
  if ¬ u.scheme = "file" then .error "unsupported DSN scheme" else
  let path0 := if ¬ u.opq = "" then u.opq else u.path
  let cfg0 : DSNConfig :=
    { path := path0, mode := "rwc", cache := "private", journalMode := "DELETE",
      busyTimeoutMs := 5000, pageSize := 0, synchronous := "FULL",
      foreignKeys := false }
  let m := queryGet u.query "mode"
  let step1 : Except String DSNConfig :=
    if m = "" then .ok cfg0
    else
      let ml := m.toLower
      if ml = "ro" ∨ ml = "rw" ∨ ml = "rwc" ∨ ml = "memory" then
        .ok { cfg0 with mode := m }
      else .error "invalid mode"
  step1.bind (fun cfg1 =>
  let c := queryGet u.query "cache"
  let step2 : Except String DSNConfig :=
    if c = "" then .ok cfg1
    else
      let cl := c.toLower
      if cl = "shared" ∨ cl = "private" then .ok { cfg1 with cache := c }
      else .error "invalid cache"
  step2.bind (fun cfg2 =>
  let j := queryGet u.query "_journal_mode"
  let step3 : Except String DSNConfig :=
    if j = "" then .ok cfg2
    else
      let ju := j.toUpper
      if ju = "DELETE" ∨ ju = "TRUNCATE" ∨ ju = "PERSIST" ∨ ju = "MEMORY" ∨
          ju = "WAL" ∨ ju = "OFF" then
        .ok { cfg2 with journalMode := j }
      else .error "invalid _journal_mode"
  step3.bind (fun cfg3 =>
  let bt := queryGet u.query "_busy_timeout"
  let step4 : Except String DSNConfig :=
    if bt = "" then .ok cfg3
    else
      match goAtoi bt with
      | .error _ => .error "invalid _busy_timeout"
      | .ok ms => .ok { cfg3 with busyTimeoutMs := ms }
  step4.bind (fun cfg4 =>
  let ps := queryGet u.query "_page_size"
  let step5 : Except String DSNConfig :=
    if ps = "" then .ok cfg4
    else
      match goParseUint16 ps with
      | .error _ => .error "invalid _page_size"
      | .ok v =>
          if v < 512 ∨ 65536 < v ∨ ¬ Nat.land v (v - 1) = 0 then
            .error "page size must be a power of 2 between 512 and 65536"
          else .ok { cfg4 with pageSize := v }
  step5.bind (fun cfg5 =>
  let sy := queryGet u.query "_synchronous"
  let step6 : Except String DSNConfig :=
    if sy = "" then .ok cfg5
    else
      let su := sy.toUpper
      if su = "FULL" ∨ su = "NORMAL" ∨ su = "OFF" then
        .ok { cfg5 with synchronous := su }
      else .error "invalid _synchronous"
  step6.bind (fun cfg6 =>
  let fk := queryGet u.query "_foreign_keys"
  if fk = "" then .ok cfg6
  else
    match goParseBool fk with
    | .error _ => .error "invalid _foreign_keys"
    | .ok v => .ok { cfg6 with foreignKeys := v }))))))

/-- The option keys `ParseDSN` recognizes. -/
def recognizedKeys : List String :=
  ["mode", "cache", "_journal_mode", "_busy_timeout", "_page_size",
   "_synchronous", "_foreign_keys"]

/-- Drop every query option whose key is not recognized. -/
def keepRecognized : List (String × String) → List (String × String)
  | [] => []
  | kv :: rest =>
      if recognizedKeys.contains kv.1 then kv :: keepRecognized rest
      else keepRecognized rest

/-- A WAL frame as described by the spec (§3): page number, commit mark
(nonzero on the final frame of a committing transaction), the two salts
copied from the WAL header, the two running-checksum words, and the page
image. -/
structure WalFrame where
  pageNo : Nat
  commitMark : Nat
  salt1 : Nat
  salt2 : Nat
  cks1 : Nat
  cks2 : Nat
  image : List Nat
deriving DecidableEq

/-- A WAL file: header salts and the frame sequence. -/
structure WalFile where
  hdrSalt1 : Nat
  hdrSalt2 : Nat
  frames : List WalFrame
deriving DecidableEq

/-- Modelled from the spec: one step of the Fletcher-like running checksum
(two 32-bit accumulators; the first adds each byte, the second adds the
first). -/
def walStep (acc : Nat × Nat) (bytes : List Nat) : Nat × Nat :=
  bytes.foldl
    (fun a b =>
      let s1 := (a.1 + b) % 4294967296
      (s1, (a.2 + s1) % 4294967296))
    acc

/-- Modelled from the spec: the bytes of a frame that enter the running
checksum (the frame header's page number and commit mark, then the page
image). -/
def frameBytes (f : WalFrame) : List Nat :=
  be32 f.pageNo ++ be32 f.commitMark ++ f.image

/-- Modelled from the spec: the checksum accumulator after the WAL header
salts. -/
def walInit (w : WalFile) : Nat × Nat :=
  walStep (0, 0) (be32 w.hdrSalt1 ++ be32 w.hdrSalt2)

/-- Modelled from the spec: the longest prefix of frames whose salts match
the header and whose stored checksum words equal the running checksum up to
and including that frame. -/
def walScan (salt1 salt2 : Nat) (acc : Nat × Nat) : List WalFrame → List WalFrame
  | [] => []
  | f :: rest =>
      let acc' := walStep acc (frameBytes f)
      if f.salt1 = salt1 ∧ f.salt2 = salt2 ∧ f.cks1 = acc'.1 ∧ f.cks2 = acc'.2 then
        f :: walScan salt1 salt2 acc' rest
      else []

/-- Length of the prefix of `fs` ending at its last commit frame (zero when
no commit frame exists). -/
def lastCommitLen : List WalFrame → Nat
  | [] => 0
  | f :: rest =>
      let r := lastCommitLen rest
      if 0 < r then r + 1 else if ¬ f.commitMark = 0 then 1 else 0

/-- Modelled from the spec (§4.3 Recovery, Property 5): the frames WAL
recovery must accept — the maximal checksum-valid prefix, truncated at the
last frame bearing a nonzero commit mark.  No implementation of this scan
exists in the repository; this definition follows the spec's words and is
the comparison point for the `Recover` stub. -/
def walAcceptedFrames (w : WalFile) : List WalFrame :=
  let valid := walScan w.hdrSalt1 w.hdrSalt2 (walInit w) w.frames
  valid.take (lastCommitLen valid)

/-- `TransactionManager.Recover` from `transaction_manager.go`: the source
body only prints two log lines and returns `nil` — it never opens, scans or
applies the WAL.  The model returns the (always empty) list of frames the
procedure applies. -/
def tmRecover (w : WalFile) : Except String (List WalFrame) :=
  let _ := w
  .ok []

/-- Every entry element in the heap carries a payload of length `n`
(wrapper elements are unconstrained). -/
def ElemsOk (n : Nat) (es : List GoElem) : Prop :=
  ∀ e ∈ es, ∀ k v, e.value = EVal.entry k v → v.length = n

/-- The pager's cache never stores a payload whose length differs from the
page size. -/
def PagerOk (s : PagerState) : Prop :=
  ElemsOk s.pageSize s.cache.elems

/-- The element at the back of `l` exists, carries a page entry (not a
wrapped element), and belongs to list `tag`; trivial when `l` is empty. -/
def backOk (es : List GoElem) (l : List Nat) (tag : ListTag) : Bool :=
  match l.getLast? with
  | some eid =>
      match es[eid]? with
      | some e =>
          (match e.value with
           | .entry _ _ => true
           | .ref _ => false) && decide (e.owner = some tag)
      | none => false
  | none => true

/-- Precondition under which `ARCCache.replace` cannot panic and its
evictions actually detach the LRU element: the backs of `T1` and `T2` are
well-formed entry elements of their lists. -/
def ReplaceSafe (s : ArcState) : Prop :=
  backOk s.elems s.t1L .t1 = true ∧ backOk s.elems s.t2L .t2 = true

/-- The Go replace condition for evicting from `T1` (as written in
`arc_cache.go`): `len(t1) > 0 && (len(t1) > p || (len(t1) == p &&
len(b2) > 0 && !b2Hit))`. -/
def replaceT1Cond (s : ArcState) (b2Hit : Bool) : Prop :=
  0 < s.t1L.length ∧
    (s.p < s.t1L.length ∨
      (s.t1L.length = s.p ∧ 0 < s.b2L.length ∧ b2Hit = false))

/-- A one-entry cache state (capacity 1, the single page 1 resident in
`T1`), used to instantiate the replace characterization. -/
def replaceDemo : ArcState :=
  ⟨1, 0, [0], [], [], [], [(1, 0)], [], [], [], [⟨.entry 1 [5], some .t1⟩]⟩

/-- The cache trace of the C4 counterexample: capacity 1, two puts of page
1 (the second moves it to `T2`), then new pages 2 and 3 (whose evictions
populate `B1` and `B2`), then a `Get` of page 2 — a `B1` ghost hit. -/
def c4Trace : List CacheOp :=
  [.put 1 [10], .put 1 [11], .put 2 [12], .put 3 [13]]

/-- The pager trace of the C2 counterexample: read page 1 twice (the second
`Get` moves its element to `T2` as a wrapper), write page 2, read page 3
(which evicts page 2 into the `B1` ghost list). -/
def c2Trace : List PagerOp :=
  [.get 1, .get 1, .write 2 (List.replicate 512 65), .get 3]

/-- A header whose distinctive field values expose the serialized offsets:
`applicationId = 2864434397` (`0xAABBCCDD`), `versionValidFor = 5`,
`sqliteVersion = 99`. -/
def hdrDemo : DatabaseHeader :=
  { defaultDatabaseHeader 4096 with
      applicationId := 2864434397, versionValidFor := 5, sqliteVersion := 99 }

/-- The running checksum of the single demo WAL frame (salts 0/0, page 1,
commit mark 1, image byte 7). -/
def walDemoCks : Nat × Nat :=
  walStep (walStep (0, 0) (be32 0 ++ be32 0)) (be32 1 ++ be32 1 ++ [7])

/-- A WAL holding exactly one checksum-valid committed frame. -/
def walDemo : WalFile :=
  ⟨0, 0, [⟨1, 1, 0, 0, walDemoCks.1, walDemoCks.2, [7]⟩]⟩

/-- The parse of `file:test.db?bogus=1`: an opaque path and a single query
option whose key is not recognized. -/
def c9URL : GoURL :=
  ⟨"file", "test.db", "", "", [("bogus", "1")]⟩

/-- C1: the claim requires `Recover` to apply exactly the maximal
checksum-valid committed prefix of the WAL.  The source's
`TransactionManager.Recover` is a stub that logs and returns `nil`: on a
WAL containing one checksum-valid frame bearing a nonzero commit mark it
applies no frame at all, while the spec-modelled accepted prefix is that
one frame. -/
theorem recover_stub_applies_no_frames :
    tmRecover walDemo = .ok [] ∧
    walAcceptedFrames walDemo = walDemo.frames ∧
    ¬ walAcceptedFrames walDemo = [] := by
  refine ⟨rfl, by decide, by decide⟩

/-- C3: lock-ladder admission fails.  `AcquireLock` grants a shared lock
unconditionally, so after transaction `t1` acquires `Exclusive`,
transaction `t2` is still granted `Shared`: both calls succeed and the
final table holds `t1 ↦ (0 shared, 1 exclusive)` and `t2 ↦ (1 shared,
0 exclusive)` — a state with one owner at `Exclusive` and another at
`Shared`, which the claim forbids. -/
theorem shared_granted_despite_exclusive :
    (runLocks newLockState
        [.acquire "t1" .exclusive, .acquire "t2" .shared]).1 = [none, none] ∧
    List.lookup "t1" (runLocks newLockState
        [.acquire "t1" .exclusive, .acquire "t2" .shared]).2.fileLocks = some (0, 1) ∧
    List.lookup "t2" (runLocks newLockState
        [.acquire "t1" .exclusive, .acquire "t2" .shared]).2.fileLocks = some (1, 0) := by
  refine ⟨rfl, rfl, rfl⟩

/-- C5: the ARC bounds fail on a capacity-1 cache.  After `Put 1, Put 2,
Get 1` the resident lists hold two pages (`|T1| + |T2| = 2 > 1`), because
the `B1` ghost hit's `replace` call finds nothing to evict; and after
`Put 1, Put 2, Put 3` the ghost lists hold two elements (`|B1| + |B2| =
2 > 1`), because evicted elements pushed onto `b1_lru` are never removed
(the map entry points at the detached element, so `Remove` is a no-op). -/
theorem arc_bounds_violated :
    (∃ s, runCache (newARCCache 1) [.put 1 [0], .put 2 [0], .get 1] = .ok s ∧
       s.capacity = 1 ∧ s.t1L.length + s.t2L.length = 2) ∧
    (∃ s, runCache (newARCCache 1) [.put 1 [0], .put 2 [0], .put 3 [0]] = .ok s ∧
       s.capacity = 1 ∧ s.b1L.length + s.b2L.length = 2) := by
  exact ⟨⟨_, rfl, rfl, rfl⟩, ⟨_, rfl, rfl, rfl⟩⟩

set_option maxRecDepth 4000 in
/-- C8: the serialized header offsets do not match the claim.  For a header
with `applicationId = 0xAABBCCDD`, `versionValidFor = 5`, `sqliteVersion =
99` and zero reserved bytes: bytes 68..71 hold `versionValidFor` (not
`application_id`, which `Bytes` puts at 56..59), bytes 72..91 are not zero
(`sqliteVersion` occupies 72..75), and bytes 96..99 are always zero
(`library_version` is never written there).  `ReadDatabaseHeader` consumes
the same wrong offsets: it reads `applicationId` back from offset 56. -/
theorem header_layout_mismatch :
    ((hdrDemo.bytes.drop 68).take 4 = be32 hdrDemo.versionValidFor ∧
      ¬ (hdrDemo.bytes.drop 68).take 4 = be32 hdrDemo.applicationId) ∧
    (hdrDemo.bytes.drop 56).take 4 = be32 hdrDemo.applicationId ∧
    ¬ (hdrDemo.bytes.drop 72).take 20 = List.replicate 20 0 ∧
    ((hdrDemo.bytes.drop 96).take 4 = [0, 0, 0, 0] ∧
      ¬ be32 hdrDemo.sqliteVersion = [0, 0, 0, 0]) ∧
    (∃ pr, readDatabaseHeader hdrDemo.bytes = .ok pr ∧
      pr.1.applicationId = 2864434397) := by
  refine ⟨⟨by decide, by decide⟩, by decide, by decide, ⟨by decide, by decide⟩, ⟨_, by rfl, by rfl⟩⟩

/-- C9 counterexample: `ParseDSN` accepts a DSN whose query holds only the
unrecognized option key `bogus`, returning the default configuration
instead of an error. -/
theorem unknown_option_accepted :
    parseDSN c9URL =
      .ok { path := "test.db", mode := "rwc", cache := "private",
            journalMode := "DELETE", busyTimeoutMs := 5000, pageSize := 0,
            synchronous := "FULL", foreignKeys := false } := by
  rfl

set_option maxRecDepth 100000 in
/-- C2: read-your-writes fails.  On a pager with page size 512 and cache
capacity 2, after `GetPage 1; GetPage 1; WritePage 2 B; GetPage 3` the
write of `B` to page 2 succeeded (page 2 is the only dirty page), no later
operation wrote page 2 and nothing was flushed — yet the next `GetPage 2`
does not return `B`: it panics with a failing type assertion inside
`ARCCache.replace` (the second `GetPage 1` moved page 1's element onto
`t2_lru` as a wrapped `*list.Element`, `GetPage 3` evicted page 2 into the
`B1` ghost list, and the ghost hit's `replace` then evicts the `T2` LRU,
whose `Value` is not an `*arcEntry`). -/
theorem read_your_writes_panics :
    ∃ s, runPager (freshPager 512 [] 2) c2Trace = .ok s ∧
      s.dirty = [2] ∧
      getPage s 2 = .error .typeAssert := by
  exact ⟨_, rfl, rfl, rfl⟩

set_option maxRecDepth 100000 in
/-- C6: `FlushDirtyPages` fails to write the dirty set.  From the same
reachable pager state as the C2 trace (page 2 dirty, nothing yet written to
the file — the event log holds only the two miss reads), `FlushDirtyPages`
panics in the cache lookup of page 2 before any `WriteAt` or `Sync`: the
dirty page is never written, no error value is returned, and the claim's
write-then-sync-then-clear behaviour never happens. -/
theorem flush_panics_before_writing :
    ∃ s, runPager (freshPager 512 [] 2) c2Trace = .ok s ∧
      s.dirty = [2] ∧
      s.events = [.readAt 0 512, .readAt 1024 512] ∧
      flushDirtyPages s = .error .typeAssert := by
  exact ⟨_, rfl, rfl, rfl, rfl⟩

set_option maxRecDepth 10000 in
/-- C4 counterexample: on a reachable capacity-1 cache state, servicing a
`B1` (not `B2`) ghost hit for page 2 evicts the LRU of `T1` into `B1` even
though `|T1| = p` (both 1 after adaptation) — the claim allows a T1
eviction at `|T1| = p` only while servicing a `B2` hit, and otherwise
(with the claim's T1 condition false) requires the eviction, if any, to
take the LRU of `T2`.  Here `T2` is untouched and `B2` unchanged, while
`T1` is emptied and `B1` grows. -/
theorem replace_diverges_from_claim :
    ∃ s v s', runCache (newARCCache 1) c4Trace = .ok s ∧
      s.t1L.length = 1 ∧ s.t2L = [] ∧ s.b2L.length = 1 ∧
      List.lookup 2 s.b1M = some 3 ∧ List.lookup 2 s.b2M = none ∧
      arcGet s 2 = .ok (v, s') ∧
      s'.p = 1 ∧
      s'.t1L = [] ∧
      s'.b1L.length = s.b1L.length + 1 ∧
      s'.t2L.length = 1 ∧
      s'.b2L = s.b2L := by
  exact ⟨_, _, _, rfl, rfl, rfl, rfl, rfl, rfl, rfl, rfl, rfl, rfl, rfl, rfl⟩

/-- C4 amended: `ARCCache.replace(b2Hit)` evicts the LRU element of `T1`
into `B1` exactly when `|T1| > 0` and (`|T1| > p`, or `|T1| == p` and
`|B2| > 0` and the eviction is *not* being performed while servicing a
`B2` ghost hit); in every other case with a non-empty `T2` it evicts the
LRU element of `T2` into `B2`, and with an empty `T2` it does nothing.
Stated for every cache state whose `T1`/`T2` LRU elements are well-formed
(`ReplaceSafe`), which holds in particular whenever the relevant list is
empty or its LRU is a genuine entry element. -/
theorem replace_evicts_t1_iff_code_cond (s : ArcState) (b2Hit : Bool)
    (h : ReplaceSafe s) :
    (replaceT1Cond s b2Hit →
      ∃ s', arcReplace s b2Hit = .ok s' ∧
        s'.t1L.length + 1 = s.t1L.length ∧
        s'.b1L.length = s.b1L.length + 1 ∧
        s'.t2L = s.t2L ∧ s'.b2L = s.b2L) ∧
    (¬ replaceT1Cond s b2Hit →
      (s.t2L = [] → arcReplace s b2Hit = .ok s) ∧
      (¬ s.t2L = [] →
        ∃ s', arcReplace s b2Hit = .ok s' ∧
          s'.t2L.length + 1 = s.t2L.length ∧
          s'.b2L.length = s.b2L.length + 1 ∧
          s'.t1L = s.t1L ∧ s'.b1L = s.b1L)) := by
  obtain ⟨h1, h2⟩ := h
  constructor
  · intro hc
    have hc' := hc
    simp only [replaceT1Cond] at hc'
    have hne : s.t1L ≠ [] := by
      intro he
      rw [he] at hc'
      simp at hc'
    obtain ⟨eid, hgl⟩ : ∃ eid, s.t1L.getLast? = some eid := by
      cases hgl : s.t1L.getLast? with
      | none => exact absurd (List.getLast?_eq_none_iff.mp hgl) hne
      | some x => exact ⟨x, rfl⟩
    cases hel : s.elems[eid]? with
    | none =>
        simp [backOk, hgl, hel] at h1
    | some e =>
        cases hv : e.value with
        | ref j =>
            simp [backOk, hgl, hel, hv] at h1
        | entry k v =>
            have hown : e.owner = some ListTag.t1 := by
              simp only [backOk, hgl, hel, hv, Bool.and_eq_true,
                decide_eq_true_eq, true_and] at h1
              exact h1
            have hmem : eid ∈ s.t1L := List.mem_of_mem_getLast? hgl
            have hrem : goRemove s.t1L ListTag.t1 eid s.elems =
                (s.t1L.erase eid, s.elems.set eid { e with owner := none }) := by
              simp [goRemove, hel, hown]
            have heq : arcReplace s b2Hit =
                .ok { s with t1M := mapDel s.t1M k,
                             t1L := s.t1L.erase eid,
                             b1L := (s.elems.set eid { e with owner := none }).length :: s.b1L,
                             b1M := mapPut s.b1M k eid,
                             elems := s.elems.set eid { e with owner := none } ++
                               [⟨EVal.ref eid, some ListTag.b1⟩] } := by
              simp only [arcReplace, goBack, hgl, if_pos hc', asEntry, hel, hv,
                hrem, goPushFront]
              rfl
            refine ⟨_, heq, ?_, by simp, rfl, rfl⟩
            have hle := List.length_erase_of_mem hmem
            have hpos : 0 < s.t1L.length := List.length_pos.mpr hne
            simp only [hle]
            omega
  · intro hc
    have hc' : ¬ (0 < s.t1L.length ∧
        (s.p < s.t1L.length ∨
          (s.t1L.length = s.p ∧ 0 < s.b2L.length ∧ b2Hit = false))) := by
      simpa only [replaceT1Cond] using hc
    constructor
    · intro ht2
      simp only [arcReplace, if_neg hc', ht2]
      rfl
    · intro ht2
      obtain ⟨eid, hgl⟩ : ∃ eid, s.t2L.getLast? = some eid := by
        cases hgl : s.t2L.getLast? with
        | none => exact absurd (List.getLast?_eq_none_iff.mp hgl) ht2
        | some x => exact ⟨x, rfl⟩
      cases hel : s.elems[eid]? with
      | none =>
          simp [backOk, hgl, hel] at h2
      | some e =>
          cases hv : e.value with
          | ref j =>
              simp [backOk, hgl, hel, hv] at h2
          | entry k v =>
              have hown : e.owner = some ListTag.t2 := by
                simp only [backOk, hgl, hel, hv, Bool.and_eq_true,
                  decide_eq_true_eq, true_and] at h2
                exact h2
              have hmem : eid ∈ s.t2L := List.mem_of_mem_getLast? hgl
              have hpos : 0 < s.t2L.length := List.length_pos.mpr ht2
              have hrem : goRemove s.t2L ListTag.t2 eid s.elems =
                  (s.t2L.erase eid, s.elems.set eid { e with owner := none }) := by
                simp [goRemove, hel, hown]
              have heq : arcReplace s b2Hit =
                  .ok { s with t2M := mapDel s.t2M k,
                               t2L := s.t2L.erase eid,
                               b2L := (s.elems.set eid { e with owner := none }).length :: s.b2L,
                               b2M := mapPut s.b2M k eid,
                               elems := s.elems.set eid { e with owner := none } ++
                                 [⟨EVal.ref eid, some ListTag.b2⟩] } := by
                simp only [arcReplace, goBack, hgl, if_neg hc', if_pos hpos,
                  asEntry, hel, hv, hrem, goPushFront]
                rfl
              refine ⟨_, heq, ?_, by simp, rfl, rfl⟩
              have hle := List.length_erase_of_mem hmem
              simp only [hle]
              omega

/-- Witness for the C4 amended theorem: the capacity-1 state holding one
entry in `T1` satisfies `ReplaceSafe`, and the characterization applies to
it. -/
theorem replace_evicts_witness :
    ReplaceSafe replaceDemo ∧
    ((replaceT1Cond replaceDemo false →
        ∃ s', arcReplace replaceDemo false = .ok s' ∧
          s'.t1L.length + 1 = replaceDemo.t1L.length ∧
          s'.b1L.length = replaceDemo.b1L.length + 1 ∧
          s'.t2L = replaceDemo.t2L ∧ s'.b2L = replaceDemo.b2L) ∧
      (¬ replaceT1Cond replaceDemo false →
        (replaceDemo.t2L = [] → arcReplace replaceDemo false = .ok replaceDemo) ∧
        (¬ replaceDemo.t2L = [] →
          ∃ s', arcReplace replaceDemo false = .ok s' ∧
            s'.t2L.length + 1 = replaceDemo.t2L.length ∧
            s'.b2L.length = replaceDemo.b2L.length + 1 ∧
            s'.t1L = replaceDemo.t1L ∧ s'.b1L = replaceDemo.b1L))) :=
  ⟨⟨by decide, by decide⟩,
    replace_evicts_t1_iff_code_cond replaceDemo false ⟨by decide, by decide⟩⟩

/-- `url.Values.Get` on a recognized key is unaffected by dropping all
unrecognized keys from the query. -/
theorem queryGet_keepRecognized (q : List (String × String)) (key : String)
    (h : key ∈ recognizedKeys) :
    queryGet (keepRecognized q) key = queryGet q key := by
  induction q with
  | nil => rfl
  | cons kv rest ih =>
      by_cases hm : recognizedKeys.contains kv.1 = true
      · simp only [keepRecognized]
        rw [if_pos hm]
        simp only [queryGet]
        by_cases hk : kv.1 = key
        · rw [if_pos hk, if_pos hk]
        · rw [if_neg hk, if_neg hk]
          exact ih
      · have hk : ¬ kv.1 = key := by
          intro he
          apply hm
          rw [he]
          simpa using h
        simp only [keepRecognized]
        rw [if_neg hm]
        simp only [queryGet]
        rw [if_neg hk]
        exact ih

/-- C9 amended: `ParseDSN` never rejects a DSN for carrying an
unrecognized option key — unrecognized keys are silently ignored
(fail-open): the result equals the parse of the same DSN with every
unrecognized query option removed. -/
theorem parseDSN_ignores_unrecognized (u : GoURL) :
    parseDSN u = parseDSN { u with query := keepRecognized u.query } := by
  have h1 := queryGet_keepRecognized u.query "mode" (by decide)
  have h2 := queryGet_keepRecognized u.query "cache" (by decide)
  have h3 := queryGet_keepRecognized u.query "_journal_mode" (by decide)
  have h4 := queryGet_keepRecognized u.query "_busy_timeout" (by decide)
  have h5 := queryGet_keepRecognized u.query "_page_size" (by decide)
  have h6 := queryGet_keepRecognized u.query "_synchronous" (by decide)
  have h7 := queryGet_keepRecognized u.query "_foreign_keys" (by decide)
  simp only [parseDSN, h1, h2, h3, h4, h5, h6, h7]

/-- `binary.BigEndian.Uint32` inverts the four big-endian byte cells of a
value below `2^32`. -/
theorem rd32_quad (x : Nat) (r : List Nat) (hx : x < 4294967296) :
    rd32 (x / 16777216 % 256 :: x / 65536 % 256 :: x / 256 % 256 :: x % 256 :: r) = x := by
  show (x / 16777216 % 256) * 16777216 + (x / 65536 % 256) * 65536 +
      (x / 256 % 256) * 256 + x % 256 = x
  omega

set_option maxHeartbeats 1000000 in
/-- Decoding the serialized header bytes recovers every field: the reader's
offsets mirror the writer's.  Stated over the writer's output (the 100-byte
buffer `DatabaseHeader.Bytes` produces, written out cell by cell) with all
fields explicit; the bounds are those of the Go struct types. -/
theorem readDatabaseHeader_bytes (ps wv rv r1 f1 f2 f3 fcc dbs fft tfp sc sf dpc vm ai uvr ivp vvf sv : Nat)
    (r2 : List Nat)
    (hpsb : ps < 65536) (hwvb : wv < 256) (hrvb : rv < 256)
    (hr1 : r1 < 256) (hf1 : f1 < 256) (hf2 : f2 < 256) (hf3 : f3 < 256)
    (hfcc : fcc < 4294967296) (hdbs : dbs < 4294967296) (hfft : fft < 4294967296)
    (htfp : tfp < 4294967296) (hsc : sc < 4294967296) (hsf : sf < 4294967296)
    (hdpc : dpc < 4294967296) (hvm : vm < 4294967296) (hai : ai < 4294967296)
    (huv : uvr < 4294967296) (hivp : ivp < 4294967296) (hvvf : vvf < 4294967296)
    (hsv : sv < 4294967296) (hr2 : r2.length = 20)
    (hps8 : ps = 1 ∨ ps = 512 ∨ ps = 1024 ∨ ps = 2048 ∨ ps = 4096 ∨
      ps = 8192 ∨ ps = 16384 ∨ ps = 32768)
    (hwv : wv = 1 ∨ wv = 2) (hrv : rv = 1 ∨ rv = 2) :
    readDatabaseHeader
      (DatabaseHeader.bytes ⟨magicName ++ [0], ps, wv, rv, r1, f1, f2, f3,
        fcc, dbs, fft, tfp, sc, sf, dpc, vm, ai, uvr, ivp, vvf, sv, r2⟩) =
      .ok (⟨magicName ++ [0], ps, wv, rv, r1, f1, f2, f3, fcc, dbs, fft, tfp,
            sc, sf, dpc, vm, ai, uvr, ivp, vvf, sv, r2⟩,
           if ps = 1 then 65536 else ps) := by
  have hcopy : goCopy 20 r2 = r2 := by
    rw [goCopy, ← hr2, Nat.sub_self, List.take_length]
    simp
  have hchain : DatabaseHeader.bytes ⟨magicName ++ [0], ps, wv, rv, r1, f1, f2,
      f3, fcc, dbs, fft, tfp, sc, sf, dpc, vm, ai, uvr, ivp, vvf, sv, r2⟩ =
      (83 ::
      81 ::
      76 ::
      105 ::
      116 ::
      101 ::
      32 ::
      102 ::
      111 ::
      114 ::
      109 ::
      97 ::
      116 ::
      32 ::
      51 ::
      0 ::
      ps / 256 % 256 ::
      ps % 256 ::
      wv ::
      rv ::
      r1 ::
      f1 ::
      f2 ::
      f3 ::
      fcc / 16777216 % 256 ::
      fcc / 65536 % 256 ::
      fcc / 256 % 256 ::
      fcc % 256 ::
      dbs / 16777216 % 256 ::
      dbs / 65536 % 256 ::
      dbs / 256 % 256 ::
      dbs % 256 ::
      fft / 16777216 % 256 ::
      fft / 65536 % 256 ::
      fft / 256 % 256 ::
      fft % 256 ::
      tfp / 16777216 % 256 ::
      tfp / 65536 % 256 ::
      tfp / 256 % 256 ::
      tfp % 256 ::
      sc / 16777216 % 256 ::
      sc / 65536 % 256 ::
      sc / 256 % 256 ::
      sc % 256 ::
      sf / 16777216 % 256 ::
      sf / 65536 % 256 ::
      sf / 256 % 256 ::
      sf % 256 ::
      dpc / 16777216 % 256 ::
      dpc / 65536 % 256 ::
      dpc / 256 % 256 ::
      dpc % 256 ::
      vm / 16777216 % 256 ::
      vm / 65536 % 256 ::
      vm / 256 % 256 ::
      vm % 256 ::
      ai / 16777216 % 256 ::
      ai / 65536 % 256 ::
      ai / 256 % 256 ::
      ai % 256 ::
      uvr / 16777216 % 256 ::
      uvr / 65536 % 256 ::
      uvr / 256 % 256 ::
      uvr % 256 ::
      ivp / 16777216 % 256 ::
      ivp / 65536 % 256 ::
      ivp / 256 % 256 ::
      ivp % 256 ::
      vvf / 16777216 % 256 ::
      vvf / 65536 % 256 ::
      vvf / 256 % 256 ::
      vvf % 256 ::
      sv / 16777216 % 256 ::
      sv / 65536 % 256 ::
      sv / 256 % 256 ::
      sv % 256 ::
      (r2 ++ [0, 0, 0, 0])) := by
    simp only [DatabaseHeader.bytes]
    rw [show goCopy 16 (magicName ++ [0]) =
      [83, 81, 76, 105, 116, 101, 32, 102, 111, 114, 109, 97, 116, 32, 51, 0] from by decide]
    rw [hcopy]
    simp only [be16, be32, List.cons_append, List.nil_append, List.append_assoc]
  rw [hchain]
  have hlen : ¬ (83 ::
      81 ::
      76 ::
      105 ::
      116 ::
      101 ::
      32 ::
      102 ::
      111 ::
      114 ::
      109 ::
      97 ::
      116 ::
      32 ::
      51 ::
      0 ::
      ps / 256 % 256 ::
      ps % 256 ::
      wv ::
      rv ::
      r1 ::
      f1 ::
      f2 ::
      f3 ::
      fcc / 16777216 % 256 ::
      fcc / 65536 % 256 ::
      fcc / 256 % 256 ::
      fcc % 256 ::
      dbs / 16777216 % 256 ::
      dbs / 65536 % 256 ::
      dbs / 256 % 256 ::
      dbs % 256 ::
      fft / 16777216 % 256 ::
      fft / 65536 % 256 ::
      fft / 256 % 256 ::
      fft % 256 ::
      tfp / 16777216 % 256 ::
      tfp / 65536 % 256 ::
      tfp / 256 % 256 ::
      tfp % 256 ::
      sc / 16777216 % 256 ::
      sc / 65536 % 256 ::
      sc / 256 % 256 ::
      sc % 256 ::
      sf / 16777216 % 256 ::
      sf / 65536 % 256 ::
      sf / 256 % 256 ::
      sf % 256 ::
      dpc / 16777216 % 256 ::
      dpc / 65536 % 256 ::
      dpc / 256 % 256 ::
      dpc % 256 ::
      vm / 16777216 % 256 ::
      vm / 65536 % 256 ::
      vm / 256 % 256 ::
      vm % 256 ::
      ai / 16777216 % 256 ::
      ai / 65536 % 256 ::
      ai / 256 % 256 ::
      ai % 256 ::
      uvr / 16777216 % 256 ::
      uvr / 65536 % 256 ::
      uvr / 256 % 256 ::
      uvr % 256 ::
      ivp / 16777216 % 256 ::
      ivp / 65536 % 256 ::
      ivp / 256 % 256 ::
      ivp % 256 ::
      vvf / 16777216 % 256 ::
      vvf / 65536 % 256 ::
      vvf / 256 % 256 ::
      vvf % 256 ::
      sv / 16777216 % 256 ::
      sv / 65536 % 256 ::
      sv / 256 % 256 ::
      sv % 256 ::
      (r2 ++ [0, 0, 0, 0])).length < 100 := by
    simp [List.length_append, hr2]
  have hps16 : rd16 (((83 ::
      81 ::
      76 ::
      105 ::
      116 ::
      101 ::
      32 ::
      102 ::
      111 ::
      114 ::
      109 ::
      97 ::
      116 ::
      32 ::
      51 ::
      0 ::
      ps / 256 % 256 ::
      ps % 256 ::
      wv ::
      rv ::
      r1 ::
      f1 ::
      f2 ::
      f3 ::
      fcc / 16777216 % 256 ::
      fcc / 65536 % 256 ::
      fcc / 256 % 256 ::
      fcc % 256 ::
      dbs / 16777216 % 256 ::
      dbs / 65536 % 256 ::
      dbs / 256 % 256 ::
      dbs % 256 ::
      fft / 16777216 % 256 ::
      fft / 65536 % 256 ::
      fft / 256 % 256 ::
      fft % 256 ::
      tfp / 16777216 % 256 ::
      tfp / 65536 % 256 ::
      tfp / 256 % 256 ::
      tfp % 256 ::
      sc / 16777216 % 256 ::
      sc / 65536 % 256 ::
      sc / 256 % 256 ::
      sc % 256 ::
      sf / 16777216 % 256 ::
      sf / 65536 % 256 ::
      sf / 256 % 256 ::
      sf % 256 ::
      dpc / 16777216 % 256 ::
      dpc / 65536 % 256 ::
      dpc / 256 % 256 ::
      dpc % 256 ::
      vm / 16777216 % 256 ::
      vm / 65536 % 256 ::
      vm / 256 % 256 ::
      vm % 256 ::
      ai / 16777216 % 256 ::
      ai / 65536 % 256 ::
      ai / 256 % 256 ::
      ai % 256 ::
      uvr / 16777216 % 256 ::
      uvr / 65536 % 256 ::
      uvr / 256 % 256 ::
      uvr % 256 ::
      ivp / 16777216 % 256 ::
      ivp / 65536 % 256 ::
      ivp / 256 % 256 ::
      ivp % 256 ::
      vvf / 16777216 % 256 ::
      vvf / 65536 % 256 ::
      vvf / 256 % 256 ::
      vvf % 256 ::
      sv / 16777216 % 256 ::
      sv / 65536 % 256 ::
      sv / 256 % 256 ::
      sv % 256 ::
      (r2 ++ [0, 0, 0, 0])).drop 16).take 2) = ps := by
    show (ps / 256 % 256) * 256 + ps % 256 = ps
    omega
  have hguard : ¬ ((if ps = 1 then 65536 else ps) < 512 ∨
      65536 < (if ps = 1 then 65536 else ps) ∨
      ¬ Nat.land (if ps = 1 then 65536 else ps)
        ((if ps = 1 then 65536 else ps) - 1) = 0) := by
    rcases hps8 with rfl | rfl | rfl | rfl | rfl | rfl | rfl | rfl <;> decide
  have hver : ¬ (2 < wv ∨ 2 < rv ∨ wv = 0 ∨ rv = 0) := by omega
  simp only [readDatabaseHeader]
  rw [if_neg hlen]
  rw [if_neg (not_not_intro ⟨rfl, rfl⟩)]
  rw [hps16]
  rw [if_neg hguard]
  have h18 : (83 ::
      81 ::
      76 ::
      105 ::
      116 ::
      101 ::
      32 ::
      102 ::
      111 ::
      114 ::
      109 ::
      97 ::
      116 ::
      32 ::
      51 ::
      0 ::
      ps / 256 % 256 ::
      ps % 256 ::
      wv ::
      rv ::
      r1 ::
      f1 ::
      f2 ::
      f3 ::
      fcc / 16777216 % 256 ::
      fcc / 65536 % 256 ::
      fcc / 256 % 256 ::
      fcc % 256 ::
      dbs / 16777216 % 256 ::
      dbs / 65536 % 256 ::
      dbs / 256 % 256 ::
      dbs % 256 ::
      fft / 16777216 % 256 ::
      fft / 65536 % 256 ::
      fft / 256 % 256 ::
      fft % 256 ::
      tfp / 16777216 % 256 ::
      tfp / 65536 % 256 ::
      tfp / 256 % 256 ::
      tfp % 256 ::
      sc / 16777216 % 256 ::
      sc / 65536 % 256 ::
      sc / 256 % 256 ::
      sc % 256 ::
      sf / 16777216 % 256 ::
      sf / 65536 % 256 ::
      sf / 256 % 256 ::
      sf % 256 ::
      dpc / 16777216 % 256 ::
      dpc / 65536 % 256 ::
      dpc / 256 % 256 ::
      dpc % 256 ::
      vm / 16777216 % 256 ::
      vm / 65536 % 256 ::
      vm / 256 % 256 ::
      vm % 256 ::
      ai / 16777216 % 256 ::
      ai / 65536 % 256 ::
      ai / 256 % 256 ::
      ai % 256 ::
      uvr / 16777216 % 256 ::
      uvr / 65536 % 256 ::
      uvr / 256 % 256 ::
      uvr % 256 ::
      ivp / 16777216 % 256 ::
      ivp / 65536 % 256 ::
      ivp / 256 % 256 ::
      ivp % 256 ::
      vvf / 16777216 % 256 ::
      vvf / 65536 % 256 ::
      vvf / 256 % 256 ::
      vvf % 256 ::
      sv / 16777216 % 256 ::
      sv / 65536 % 256 ::
      sv / 256 % 256 ::
      sv % 256 ::
      (r2 ++ [0, 0, 0, 0])).getD 18 0 = wv := rfl
  have h19 : (83 ::
      81 ::
      76 ::
      105 ::
      116 ::
      101 ::
      32 ::
      102 ::
      111 ::
      114 ::
      109 ::
      97 ::
      116 ::
      32 ::
      51 ::
      0 ::
      ps / 256 % 256 ::
      ps % 256 ::
      wv ::
      rv ::
      r1 ::
      f1 ::
      f2 ::
      f3 ::
      fcc / 16777216 % 256 ::
      fcc / 65536 % 256 ::
      fcc / 256 % 256 ::
      fcc % 256 ::
      dbs / 16777216 % 256 ::
      dbs / 65536 % 256 ::
      dbs / 256 % 256 ::
      dbs % 256 ::
      fft / 16777216 % 256 ::
      fft / 65536 % 256 ::
      fft / 256 % 256 ::
      fft % 256 ::
      tfp / 16777216 % 256 ::
      tfp / 65536 % 256 ::
      tfp / 256 % 256 ::
      tfp % 256 ::
      sc / 16777216 % 256 ::
      sc / 65536 % 256 ::
      sc / 256 % 256 ::
      sc % 256 ::
      sf / 16777216 % 256 ::
      sf / 65536 % 256 ::
      sf / 256 % 256 ::
      sf % 256 ::
      dpc / 16777216 % 256 ::
      dpc / 65536 % 256 ::
      dpc / 256 % 256 ::
      dpc % 256 ::
      vm / 16777216 % 256 ::
      vm / 65536 % 256 ::
      vm / 256 % 256 ::
      vm % 256 ::
      ai / 16777216 % 256 ::
      ai / 65536 % 256 ::
      ai / 256 % 256 ::
      ai % 256 ::
      uvr / 16777216 % 256 ::
      uvr / 65536 % 256 ::
      uvr / 256 % 256 ::
      uvr % 256 ::
      ivp / 16777216 % 256 ::
      ivp / 65536 % 256 ::
      ivp / 256 % 256 ::
      ivp % 256 ::
      vvf / 16777216 % 256 ::
      vvf / 65536 % 256 ::
      vvf / 256 % 256 ::
      vvf % 256 ::
      sv / 16777216 % 256 ::
      sv / 65536 % 256 ::
      sv / 256 % 256 ::
      sv % 256 ::
      (r2 ++ [0, 0, 0, 0])).getD 19 0 = rv := rfl
  rw [h18, h19]
  rw [if_neg hver]
  refine congrArg Except.ok ?_
  refine Prod.ext ?_ rfl
  rw [DatabaseHeader.mk.injEq]
  refine ⟨rfl, rfl, rfl, rfl, rfl, rfl, rfl, rfl,
    rd32_quad fcc _ hfcc,
    rd32_quad dbs _ hdbs,
    rd32_quad fft _ hfft,
    rd32_quad tfp _ htfp,
    rd32_quad sc _ hsc,
    rd32_quad sf _ hsf,
    rd32_quad dpc _ hdpc,
    rd32_quad vm _ hvm,
    rd32_quad ai _ hai,
    rd32_quad uvr _ huv,
    rd32_quad ivp _ hivp,
    rd32_quad vvf _ hvvf,
    rd32_quad sv _ hsv, ?_⟩
  show (r2 ++ [0, 0, 0, 0]).take 20 = r2
  rw [← hr2]
  exact List.take_left r2 [0, 0, 0, 0]

set_option maxHeartbeats 1000000 in
/-- C10: header serialization round-trip.  For every well-formed
`DatabaseHeader` whose magic is exactly `"SQLite format 3\x00"`, whose page
size field stores a power of two between 512 and 32768 or the value 1
(denoting 65536), and whose format versions are 1 or 2,
`ReadDatabaseHeader` applied to `Bytes()` succeeds and returns a header
structurally equal to the original together with the decoded actual page
size. -/
theorem header_roundtrip (h : DatabaseHeader) (hwf : HeaderWF h)
    (hmagic : h.magicString = magicName ++ [0])
    (hps8 : h.pageSize = 1 ∨ h.pageSize = 512 ∨ h.pageSize = 1024 ∨
      h.pageSize = 2048 ∨ h.pageSize = 4096 ∨ h.pageSize = 8192 ∨
      h.pageSize = 16384 ∨ h.pageSize = 32768)
    (hwv : h.fileFormatWriteVersion = 1 ∨ h.fileFormatWriteVersion = 2)
    (hrv : h.fileFormatReadVersion = 1 ∨ h.fileFormatReadVersion = 2) :
    readDatabaseHeader h.bytes =
      .ok (h, if h.pageSize = 1 then 65536 else h.pageSize) := by
  obtain ⟨m, ps, wv, rv, r1, f1, f2, f3, fcc, dbs, fft, tfp, sc, sf, dpc, vm,
    ai, uvr, ivp, vvf, sv, r2⟩ := h
  obtain ⟨hm16, hpsb, hwvb, hrvb, hr1, hf1, hf2, hf3, hfcc, hdbs, hfft, htfp,
    hsc, hsf, hdpc, hvm, hai, huv, hivp, hvvf, hsv, hr2⟩ := hwf
  subst hmagic
  exact readDatabaseHeader_bytes ps wv rv r1 f1 f2 f3 fcc dbs fft tfp sc sf
    dpc vm ai uvr ivp vvf sv r2 hpsb hwvb hrvb hr1 hf1 hf2 hf3 hfcc hdbs hfft
    htfp hsc hsf hdpc hvm hai huv hivp hvvf hsv hr2 hps8 hwv hrv

set_option maxHeartbeats 1000000 in
/-- Witness for C10: the source's `DefaultDatabaseHeader(4096)` round-trips
through `Bytes` and `ReadDatabaseHeader`, decoding to page size 4096. -/
theorem header_roundtrip_witness :
    readDatabaseHeader (defaultDatabaseHeader 4096).bytes =
      .ok (defaultDatabaseHeader 4096,
        if (defaultDatabaseHeader 4096).pageSize = 1 then 65536
        else (defaultDatabaseHeader 4096).pageSize) :=
  header_roundtrip (defaultDatabaseHeader 4096)
    (by unfold HeaderWF; decide) (by decide)
    (by decide) (by decide) (by decide)

/-- `ElemsOk` is closed under updating one element to another whose entry
payload (if any) also has length `n`. -/
theorem elemsOk_set (n : Nat) (es : List GoElem) (i : Nat) (e' : GoElem)
    (h : ElemsOk n es)
    (he' : ∀ k v, e'.value = EVal.entry k v → v.length = n) :
    ElemsOk n (es.set i e') := by
  intro e he k v hv
  rcases List.mem_or_eq_of_mem_set he with hmem | rfl
  · exact h e hmem k v hv
  · exact he' k v hv

/-- `ElemsOk` is closed under appending an element whose entry payload (if
any) has length `n`. -/
theorem elemsOk_append (n : Nat) (es : List GoElem) (e' : GoElem)
    (h : ElemsOk n es)
    (he' : ∀ k v, e'.value = EVal.entry k v → v.length = n) :
    ElemsOk n (es ++ [e']) := by
  intro e he k v hv
  rcases List.mem_append.mp he with hmem | hmem
  · exact h e hmem k v hv
  · rw [List.mem_singleton.mp hmem] at hv
    exact he' k v hv

/-- `goRemove` only changes an element's list tag: `ElemsOk` is preserved. -/
theorem elemsOk_goRemove (n : Nat) (l : List Nat) (t : ListTag) (i : Nat)
    (es : List GoElem) (h : ElemsOk n es) :
    ElemsOk n (goRemove l t i es).2 := by
  unfold goRemove
  cases heq : es[i]? with
  | none => exact h
  | some e =>
      by_cases ho : e.owner = some t
      · simp only [ho, if_pos]
        exact elemsOk_set n es i _ h
          (fun k v hv => h e (List.getElem?_mem heq) k v hv)
      · simp only [ho, if_neg, ite_false]
        exact h

/-- `goPushFront` appends one fresh element: `ElemsOk` is preserved when
its payload (if an entry) has length `n`. -/
theorem elemsOk_goPushFront (n : Nat) (l : List Nat) (t : ListTag) (v : EVal)
    (es : List GoElem) (h : ElemsOk n es)
    (hv : ∀ k vv, v = EVal.entry k vv → vv.length = n) :
    ElemsOk n (goPushFront l t v es).2.1 :=
  elemsOk_append n es _ h hv

/-- A successful type assertion returns a payload of length `n` on an
`ElemsOk` heap. -/
theorem asEntry_length (n : Nat) (es : List GoElem) (i k : Nat) (v : List Nat)
    (h : ElemsOk n es) (ha : asEntry es i = .ok (k, v)) : v.length = n := by
  unfold asEntry at ha
  cases heq : es[i]? with
  | none =>
      simp only [heq] at ha
      exact absurd ha (by simp)
  | some e =>
      simp only [heq] at ha
      cases hv : e.value with
      | entry k' v' =>
          simp only [hv, Except.ok.injEq, Prod.mk.injEq] at ha
          rcases ha with ⟨rfl, rfl⟩
          exact h e (List.getElem?_mem heq) _ _ hv
      | ref j =>
          simp only [hv] at ha
          exact absurd ha (by simp)

/-- `ARCCache.replace` preserves `ElemsOk`: it only detaches an element and
allocates a wrapper. -/
theorem elemsOk_arcReplace (n : Nat) (s : ArcState) (b : Bool) (s' : ArcState)
    (h : ElemsOk n s.elems) (hr : arcReplace s b = .ok s') :
    ElemsOk n s'.elems := by
  unfold arcReplace at hr
  split at hr
  · cases hgl : goBack s.t1L with
    | none =>
        simp only [hgl] at hr
        exact absurd hr (by simp)
    | some eid =>
        simp only [hgl] at hr
        cases ha : asEntry s.elems eid with
        | error e =>
            simp only [ha, bind, Except.bind] at hr
            exact absurd hr (by simp)
        | ok kv =>
            obtain ⟨k, v⟩ := kv
            simp only [ha, bind, Except.bind, Except.ok.injEq] at hr
            subst hr
            exact elemsOk_goPushFront n s.b1L ListTag.b1 (EVal.ref eid)
              (goRemove s.t1L ListTag.t1 eid s.elems).2
              (elemsOk_goRemove n s.t1L ListTag.t1 eid s.elems h)
              (fun k' vv hv => by cases hv)
  · split at hr
    · cases hgl : goBack s.t2L with
      | none =>
          simp only [hgl] at hr
          exact absurd hr (by simp)
      | some eid =>
          simp only [hgl] at hr
          cases ha : asEntry s.elems eid with
          | error e =>
              simp only [ha, bind, Except.bind] at hr
              exact absurd hr (by simp)
          | ok kv =>
              obtain ⟨k, v⟩ := kv
              simp only [ha, bind, Except.bind, Except.ok.injEq] at hr
              subst hr
              exact elemsOk_goPushFront n s.b2L ListTag.b2 (EVal.ref eid)
                (goRemove s.t2L ListTag.t2 eid s.elems).2
                (elemsOk_goRemove n s.t2L ListTag.t2 eid s.elems h)
                (fun k' vv hv => by cases hv)
    · simp only [Except.ok.injEq] at hr
      subst hr
      exact h

/-- `ARCCache.Get` preserves `ElemsOk`, and any page it returns has length
`n`. -/
theorem arcGet_elemsOk (n : Nat) (s : ArcState) (id : Nat)
    (r : Option (List Nat)) (s' : ArcState)
    (h : ElemsOk n s.elems) (hg : arcGet s id = .ok (r, s')) :
    ElemsOk n s'.elems ∧ (∀ v, r = some v → v.length = n) := by
  unfold arcGet at hg
  cases h1 : List.lookup id s.t1M with
  | some eid =>
      simp only [h1] at hg
      have hok : ElemsOk n (goPushFront s.t2L .t2 (.ref eid)
          (goRemove s.t1L .t1 eid s.elems).2).2.1 :=
        elemsOk_goPushFront n s.t2L ListTag.t2 (EVal.ref eid)
          (goRemove s.t1L ListTag.t1 eid s.elems).2
          (elemsOk_goRemove n s.t1L ListTag.t1 eid s.elems h)
          (fun k' vv hv => by cases hv)
      cases ha : asEntry (goPushFront s.t2L .t2 (.ref eid)
          (goRemove s.t1L .t1 eid s.elems).2).2.1 eid with
      | error e =>
          simp only [ha, bind, Except.bind] at hg
          exact absurd hg (by simp)
      | ok kv =>
          obtain ⟨k, v⟩ := kv
          simp only [ha, bind, Except.bind, Except.ok.injEq, Prod.mk.injEq] at hg
          obtain ⟨rfl, rfl⟩ := hg
          refine ⟨hok, ?_⟩
          intro vv hvv
          cases hvv
          exact asEntry_length n _ eid k _ hok ha
  | none =>
  cases h2 : List.lookup id s.t2M with
  | some eid =>
      simp only [h1, h2] at hg
      cases ha : asEntry s.elems eid with
      | error e =>
          simp only [ha, bind, Except.bind] at hg
          exact absurd hg (by simp)
      | ok kv =>
          obtain ⟨k, v⟩ := kv
          simp only [ha, bind, Except.bind, Except.ok.injEq, Prod.mk.injEq] at hg
          obtain ⟨rfl, rfl⟩ := hg
          refine ⟨h, ?_⟩
          intro vv hvv
          cases hvv
          exact asEntry_length n _ eid k _ h ha
  | none =>
  cases h3 : List.lookup id s.b1M with
  | some eid =>
      simp only [h1, h2, h3] at hg
      cases hd : goDiv s.b2L.length s.b1L.length with
      | error e =>
          simp only [hd, bind, Except.bind] at hg
          exact absurd hg (by simp)
      | ok d =>
          simp only [hd, bind, Except.bind] at hg
          cases hrep : arcReplace { s with p := min s.capacity (s.p + max 1 d) } false with
          | error e =>
              rw [hrep] at hg
              exact absurd hg (by simp)
          | ok s2 =>
              rw [hrep] at hg
              have h2ok : ElemsOk n s2.elems :=
                elemsOk_arcReplace n { s with p := min s.capacity (s.p + max 1 d) }
                  false s2 h hrep
              cases ha : asEntry s2.elems eid with
              | error e =>
                  simp only [ha] at hg
                  exact absurd hg (by simp)
              | ok kv =>
                  obtain ⟨k, v⟩ := kv
                  have hvlen : v.length = n := asEntry_length n _ eid k v h2ok ha
                  simp only [ha, Except.ok.injEq, Prod.mk.injEq] at hg
                  obtain ⟨rfl, rfl⟩ := hg
                  refine ⟨?_, ?_⟩
                  · exact elemsOk_goPushFront n s2.t2L ListTag.t2 (EVal.entry k v)
                      (goRemove s2.b1L ListTag.b1 eid s2.elems).2
                      (elemsOk_goRemove n s2.b1L ListTag.b1 eid s2.elems h2ok)
                      (fun k' vv hv => by cases hv; exact hvlen)
                  · intro vv hvv
                    cases hvv
                    exact hvlen
  | none =>
  cases h4 : List.lookup id s.b2M with
  | some eid =>
      simp only [h1, h2, h3, h4] at hg
      cases hd : goDiv s.b1L.length s.b2L.length with
      | error e =>
          simp only [hd, bind, Except.bind] at hg
          exact absurd hg (by simp)
      | ok d =>
          simp only [hd, bind, Except.bind] at hg
          cases hrep : arcReplace { s with p := s.p - max 1 d } true with
          | error e =>
              rw [hrep] at hg
              exact absurd hg (by simp)
          | ok s2 =>
              rw [hrep] at hg
              have h2ok : ElemsOk n s2.elems :=
                elemsOk_arcReplace n { s with p := s.p - max 1 d }
                  true s2 h hrep
              cases ha : asEntry s2.elems eid with
              | error e =>
                  simp only [ha] at hg
                  exact absurd hg (by simp)
              | ok kv =>
                  obtain ⟨k, v⟩ := kv
                  have hvlen : v.length = n := asEntry_length n _ eid k v h2ok ha
                  simp only [ha, Except.ok.injEq, Prod.mk.injEq] at hg
                  obtain ⟨rfl, rfl⟩ := hg
                  refine ⟨?_, ?_⟩
                  · exact elemsOk_goPushFront n s2.t2L ListTag.t2 (EVal.entry k v)
                      (goRemove s2.b2L ListTag.b2 eid s2.elems).2
                      (elemsOk_goRemove n s2.b2L ListTag.b2 eid s2.elems h2ok)
                      (fun k' vv hv => by cases hv; exact hvlen)
                  · intro vv hvv
                    cases hvv
                    exact hvlen
  | none =>
      simp only [h1, h2, h3, h4, Except.ok.injEq, Prod.mk.injEq] at hg
      obtain ⟨rfl, rfl⟩ := hg
      exact ⟨h, fun vv hvv => by cases hvv⟩

/-- Splitting a successful `Except` bind into its two successful stages. -/
theorem exceptBind_ok {α β : Type} (m : Except GoPanic α)
    (g : α → Except GoPanic β) (y : β) (hmg : m.bind g = .ok y) :
    ∃ w, m = .ok w ∧ g w = .ok y := by
  cases m with
  | ok w => exact ⟨w, rfl, hmg⟩
  | error e => simp [Except.bind] at hmg

/-- The B1-trim move preserves `ElemsOk`. -/
theorem arcPutNewTrimB1_elemsOk (n : Nat) (s : ArcState) (s' : ArcState)
    (h : ElemsOk n s.elems) (hq : arcPutNewTrimB1 s = .ok s') :
    ElemsOk n s'.elems := by
  unfold arcPutNewTrimB1 at hq
  split at hq
  · cases hb : goBack s.b1L with
    | none =>
        rw [hb] at hq
        exact absurd hq (by simp)
    | some old =>
        rw [hb] at hq
        obtain ⟨kv, hkv, hq⟩ := exceptBind_ok _ _ _ hq
        obtain ⟨k, v⟩ := kv
        simp only [Except.ok.injEq] at hq
        subst hq
        exact elemsOk_goPushFront n s.b2L ListTag.b2 (EVal.ref old)
          (goRemove s.b1L ListTag.b1 old s.elems).2
          (elemsOk_goRemove n s.b1L ListTag.b1 old s.elems h)
          (fun k' vv hv => by cases hv)
  · simp only [Except.ok.injEq] at hq
    subst hq
    exact h

/-- The T1-trim move preserves `ElemsOk`. -/
theorem arcPutNewTrimT1_elemsOk (n : Nat) (s : ArcState) (s' : ArcState)
    (h : ElemsOk n s.elems) (hq : arcPutNewTrimT1 s = .ok s') :
    ElemsOk n s'.elems := by
  unfold arcPutNewTrimT1 at hq
  cases hb : goBack s.t1L with
  | none =>
      rw [hb] at hq
      exact absurd hq (by simp)
  | some old =>
      rw [hb] at hq
      obtain ⟨kv, hkv, hq⟩ := exceptBind_ok _ _ _ hq
      obtain ⟨k, v⟩ := kv
      simp only [Except.ok.injEq] at hq
      subst hq
      exact elemsOk_goPushFront n s.b1L ListTag.b1 (EVal.ref old)
        (goRemove s.t1L ListTag.t1 old s.elems).2
        (elemsOk_goRemove n s.t1L ListTag.t1 old s.elems h)
        (fun k' vv hv => by cases hv)

/-- The capacity block preserves `ElemsOk`. -/
theorem arcPutNewStage1_elemsOk (n : Nat) (s : ArcState) (s' : ArcState)
    (h : ElemsOk n s.elems) (hq : arcPutNewStage1 s = .ok s') :
    ElemsOk n s'.elems := by
  unfold arcPutNewStage1 at hq
  split at hq
  · obtain ⟨sa, hsa, hq⟩ := exceptBind_ok _ _ _ hq
    exact arcPutNewTrimT1_elemsOk n sa s'
      (arcPutNewTrimB1_elemsOk n s sa h hsa) hq
  · simp only [Except.ok.injEq] at hq
    subst hq
    exact h

/-- The replace guard preserves `ElemsOk`. -/
theorem arcPutNewGuard_elemsOk (n : Nat) (s : ArcState) (s' : ArcState)
    (h : ElemsOk n s.elems) (hq : arcPutNewGuard s = .ok s') :
    ElemsOk n s'.elems := by
  unfold arcPutNewGuard at hq
  split at hq
  · exact elemsOk_arcReplace n s false s' h hq
  · simp only [Except.ok.injEq] at hq
    subst hq
    exact h

/-- The new-page tail of `ARCCache.Put` preserves `ElemsOk` when the new
payload has length `n`. -/
theorem arcPutNew_elemsOk (n : Nat) (s : ArcState) (id : Nat) (page : List Nat)
    (s' : ArcState) (h : ElemsOk n s.elems) (hp : page.length = n)
    (hq : arcPutNew s id page = .ok s') : ElemsOk n s'.elems := by
  unfold arcPutNew at hq
  obtain ⟨s1, hs1, hq⟩ := exceptBind_ok _ _ _ hq
  obtain ⟨s2, hs2, hq⟩ := exceptBind_ok _ _ _ hq
  have h2 : ElemsOk n s2.elems :=
    arcPutNewGuard_elemsOk n s1 s2 (arcPutNewStage1_elemsOk n s s1 h hs1) hs2
  simp only [Except.ok.injEq] at hq
  subst hq
  exact elemsOk_goPushFront n s2.t1L ListTag.t1 (EVal.entry id page) s2.elems
    h2 (fun k' vv hv => by cases hv; exact hp)

/-- `ARCCache.Put` preserves `ElemsOk` when the stored payload has length
`n`. -/
theorem arcPut_elemsOk (n : Nat) (s : ArcState) (id : Nat) (page : List Nat)
    (s' : ArcState) (h : ElemsOk n s.elems) (hp : page.length = n)
    (hq : arcPut s id page = .ok s') : ElemsOk n s'.elems := by
  unfold arcPut at hq
  cases h1 : List.lookup id s.t1M with
  | some eid =>
      simp only [h1, Except.ok.injEq] at hq
      subst hq
      exact elemsOk_goPushFront n s.t2L ListTag.t2 (EVal.entry id page)
        (goRemove s.t1L ListTag.t1 eid s.elems).2
        (elemsOk_goRemove n s.t1L ListTag.t1 eid s.elems h)
        (fun k' vv hv => by cases hv; exact hp)
  | none =>
  cases h2 : List.lookup id s.t2M with
  | some eid =>
      simp only [h1, h2, Except.ok.injEq] at hq
      subst hq
      cases hel : s.elems[eid]? with
      | none => simp only [hel]; exact h
      | some e =>
          simp only [hel]
          exact elemsOk_set n s.elems eid _ h
            (fun k' vv hv => by cases hv; exact hp)
  | none =>
  cases h3 : List.lookup id s.b1M with
  | some eid =>
      simp only [h1, h2, h3] at hq
      obtain ⟨d, hd, hq⟩ := exceptBind_ok _ _ _ hq
      obtain ⟨s2, hrep, hq⟩ := exceptBind_ok _ _ _ hq
      have h2ok : ElemsOk n s2.elems :=
        elemsOk_arcReplace n { s with p := min s.capacity (s.p + max 1 d) }
          false s2 h hrep
      simp only [Except.ok.injEq] at hq
      subst hq
      exact elemsOk_goPushFront n s2.t2L ListTag.t2 (EVal.entry id page)
        (goRemove s2.b1L ListTag.b1 eid s2.elems).2
        (elemsOk_goRemove n s2.b1L ListTag.b1 eid s2.elems h2ok)
        (fun k' vv hv => by cases hv; exact hp)
  | none =>
  cases h4 : List.lookup id s.b2M with
  | some eid =>
      simp only [h1, h2, h3, h4] at hq
      obtain ⟨d, hd, hq⟩ := exceptBind_ok _ _ _ hq
      obtain ⟨s2, hrep, hq⟩ := exceptBind_ok _ _ _ hq
      have h2ok : ElemsOk n s2.elems :=
        elemsOk_arcReplace n { s with p := s.p - max 1 d } true s2 h hrep
      simp only [Except.ok.injEq] at hq
      subst hq
      exact elemsOk_goPushFront n s2.t2L ListTag.t2 (EVal.entry id page)
        (goRemove s2.b2L ListTag.b2 eid s2.elems).2
        (elemsOk_goRemove n s2.b2L ListTag.b2 eid s2.elems h2ok)
        (fun k' vv hv => by cases hv; exact hp)
  | none =>
      simp only [h1, h2, h3, h4] at hq
      exact arcPutNew_elemsOk n s id page s' h hp hq

/-- The zero-padded miss buffer always has exactly `ps` bytes. -/
theorem padBuf_length (file : List Nat) (off ps : Nat) :
    ((file.drop off).take ps ++
      List.replicate (ps - fileReadLen file off ps) 0).length = ps := by
  simp only [List.length_append, List.length_take, List.length_drop,
    List.length_replicate, fileReadLen]
  omega

/-- `goCopy` always returns a buffer of the destination length. -/
theorem goCopy_length (ps : Nat) (data : List Nat) :
    (goCopy ps data).length = ps := by
  simp only [goCopy, List.length_append, List.length_take,
    List.length_replicate]
  omega

/-- `GetPage` preserves the pager invariant, keeps the page size, and any
page it returns has exactly `pageSize` bytes. -/
theorem getPage_ok (s : PagerState) (id : Nat)
    (res : Except PagerErr (List Nat)) (s' : PagerState)
    (h : PagerOk s) (hg : getPage s id = .ok (res, s')) :
    PagerOk s' ∧ s'.pageSize = s.pageSize ∧
      (∀ buf, res = .ok buf → buf.length = s.pageSize) := by
  unfold getPage at hg
  by_cases hid : id = 0
  · simp only [hid, if_pos, Except.ok.injEq, Prod.mk.injEq] at hg
    obtain ⟨rfl, rfl⟩ := hg
    exact ⟨h, rfl, fun buf hb => by cases hb⟩
  · simp only [hid, if_neg, ite_false] at hg
    obtain ⟨hc, hget, hg⟩ := exceptBind_ok _ _ _ hg
    obtain ⟨hit, c1⟩ := hc
    have hpres := arcGet_elemsOk s.pageSize s.cache id hit c1 h hget
    cases hit with
    | some pg =>
        simp only [Except.ok.injEq, Prod.mk.injEq] at hg
        obtain ⟨rfl, rfl⟩ := hg
        exact ⟨hpres.1, rfl, fun buf hb => by
          cases hb
          exact hpres.2 _ rfl⟩
    | none =>
        obtain ⟨c2, hput, hg⟩ := exceptBind_ok _ _ _ hg
        simp only [Except.ok.injEq, Prod.mk.injEq] at hg
        obtain ⟨rfl, rfl⟩ := hg
        refine ⟨?_, rfl, fun buf hb => by cases hb; exact padBuf_length _ _ _⟩
        exact arcPut_elemsOk s.pageSize c1 id _ c2 hpres.1
          (padBuf_length _ _ _) hput

/-- `WritePage` preserves the pager invariant and the page size. -/
theorem writePage_ok (s : PagerState) (id : Nat) (data : List Nat)
    (s' : PagerState) (h : PagerOk s)
    (hw : writePage s id data = .ok (.ok s')) :
    PagerOk s' ∧ s'.pageSize = s.pageSize := by
  unfold writePage at hw
  by_cases hid : id = 0
  · simp only [hid, if_pos] at hw
    exact absurd hw (by simp)
  · simp only [hid, if_neg, ite_false] at hw
    by_cases hsz : ¬ data.length % 65536 = s.pageSize % 65536
    · rw [if_pos hsz] at hw
      exact absurd hw (by simp)
    · rw [if_neg hsz] at hw
      obtain ⟨c, hput, hw⟩ := exceptBind_ok _ _ _ hw
      simp only [Except.ok.injEq] at hw
      subst hw
      exact ⟨arcPut_elemsOk s.pageSize s.cache id _ c h (goCopy_length _ _) hput,
        rfl⟩

/-- The flush loop preserves the pager invariant and the page size. -/
theorem flushPages_ok (ids : List Nat) (s : PagerState)
    (out : PagerState × Option PagerErr) (h : PagerOk s)
    (hf : flushPages s ids = .ok out) :
    PagerOk out.1 ∧ out.1.pageSize = s.pageSize := by
  induction ids generalizing s with
  | nil =>
      unfold flushPages at hf
      simp only [Except.ok.injEq] at hf
      subst hf
      exact ⟨h, rfl⟩
  | cons id rest ih =>
      unfold flushPages at hf
      obtain ⟨hc, hget, hf⟩ := exceptBind_ok _ _ _ hf
      obtain ⟨hit, c'⟩ := hc
      have hpres := arcGet_elemsOk s.pageSize s.cache id hit c' h hget
      cases hit with
      | none =>
          dsimp only at hf
          simp only [Except.ok.injEq] at hf
          subst hf
          exact ⟨hpres.1, rfl⟩
      | some pg =>
          dsimp only at hf
          have h2 := ih { s with cache := c', fileData := writeBytes s.fileData ((id - 1) * s.pageSize) pg, events := s.events ++ [FileEv.writeAt ((id - 1) * s.pageSize) pg] } (by exact hpres.1) hf
          exact ⟨h2.1, h2.2⟩

/-- `FlushDirtyPages` preserves the pager invariant and the page size. -/
theorem flushDirtyPages_ok (s : PagerState) (out : PagerState × Option PagerErr)
    (h : PagerOk s) (hf : flushDirtyPages s = .ok out) :
    PagerOk out.1 ∧ out.1.pageSize = s.pageSize := by
  unfold flushDirtyPages at hf
  obtain ⟨o1, hfp, hf⟩ := exceptBind_ok _ _ _ hf
  have h1 := flushPages_ok (sortAsc s.dirty) s o1 h hfp
  obtain ⟨s1, e⟩ := o1
  cases e with
  | some err =>
      simp only [Except.ok.injEq] at hf
      subst hf
      exact h1
  | none =>
      simp only [Except.ok.injEq] at hf
      subst hf
      exact h1

/-- Each pager operation preserves the invariant and the page size. -/
theorem runPagerOp_ok (s : PagerState) (op : PagerOp) (s' : PagerState)
    (h : PagerOk s) (hr : runPagerOp s op = .ok s') :
    PagerOk s' ∧ s'.pageSize = s.pageSize := by
  cases op with
  | get i =>
      unfold runPagerOp at hr
      obtain ⟨rc, hget, hr⟩ := exceptBind_ok _ _ _ hr
      obtain ⟨res, st⟩ := rc
      simp only [Except.ok.injEq] at hr
      subst hr
      exact ⟨(getPage_ok s i res st h hget).1, (getPage_ok s i res st h hget).2.1⟩
  | write i d =>
      unfold runPagerOp at hr
      obtain ⟨r, hw, hr⟩ := exceptBind_ok _ _ _ hr
      cases r with
      | ok st =>
          simp only [Except.ok.injEq] at hr
          subst hr
          exact writePage_ok s i d st h hw
      | error e =>
          simp only [Except.ok.injEq] at hr
          subst hr
          exact ⟨h, rfl⟩
  | flush =>
      unfold runPagerOp at hr
      obtain ⟨o1, hf, hr⟩ := exceptBind_ok _ _ _ hr
      obtain ⟨s1, e⟩ := o1
      simp only [Except.ok.injEq] at hr
      subst hr
      exact flushDirtyPages_ok s (s1, e) h hf

/-- Running pager operations preserves the invariant and the page size. -/
theorem runPager_ok (ops : List PagerOp) (s s' : PagerState)
    (h : PagerOk s) (hr : runPager s ops = .ok s') :
    PagerOk s' ∧ s'.pageSize = s.pageSize := by
  induction ops generalizing s with
  | nil =>
      unfold runPager at hr
      simp only [Except.ok.injEq] at hr
      subst hr
      exact ⟨h, rfl⟩
  | cons op rest ih =>
      unfold runPager at hr
      obtain ⟨s1, hop, hr⟩ := exceptBind_ok _ _ _ hr
      have h1 := runPagerOp_ok s op s1 h hop
      have h2 := ih s1 h1.1 hr
      exact ⟨h2.1, h2.2.trans h1.2⟩

/-- Any position of an all-zero replicate list reads zero with default
zero. -/
theorem getD_replicate_zero (m j : Nat) : (List.replicate m 0).getD j 0 = 0 := by
  rcases Nat.lt_or_ge j m with hj | hj
  · simp [List.getD, List.getElem?_replicate, hj]
  · have hnone : (List.replicate m (0 : Nat))[j]? = none := by
      rw [List.getElem?_eq_none_iff]
      simpa using hj
    simp [List.getD, hnone]

/-- Reading past the left part of an append with default zero. -/
theorem getD_append_right_zero (l r : List Nat) (i : Nat) (h : l.length ≤ i) :
    (l ++ r).getD i 0 = r.getD (i - l.length) 0 := by
  simp [List.getD, List.getElem?_append_right h]

/-- C7: the `GetPage` contract.  On any pager state reachable from a fresh
pager by `GetPage`/`WritePage`/`FlushDirtyPages` operations: `GetPage 0`
returns the invalid-page-id error with the state unchanged (in particular
no file event is recorded); every successful `GetPage` returns a buffer of
exactly `pageSize` bytes; and when the page is not cached (a disk read
happens), every byte past the data actually read — i.e. past
`fileReadLen`, the number of bytes before end-of-file — is zero. -/
theorem getPage_contract (ps : Nat) (file : List Nat) (cap : Nat)
    (ops : List PagerOp) (s : PagerState) (id : Nat)
    (hrun : runPager (freshPager ps file cap) ops = .ok s) :
    getPage s 0 = .ok (.error .invalidPageId, s) ∧
    (∀ r s', getPage s id = .ok (.ok r, s') → r.length = ps) ∧
    (∀ c1, 1 ≤ id → arcGet s.cache id = .ok (none, c1) →
      ∀ r s', getPage s id = .ok (.ok r, s') →
        ∀ i, fileReadLen s.fileData ((id - 1) * s.pageSize) s.pageSize ≤ i →
          i < s.pageSize → r.getD i 0 = 0) := by
  have hfreshOk : PagerOk (freshPager ps file cap) := by
    intro e he k v hv
    cases he
  have hps := runPager_ok ops (freshPager ps file cap) s hfreshOk hrun
  refine ⟨rfl, ?_, ?_⟩
  · intro r s' hg
    have hc := getPage_ok s id (.ok r) s' hps.1 hg
    have : s.pageSize = ps := hps.2
    rw [← this]
    exact hc.2.2 r rfl
  · intro c1 hid hmiss r s' hg i hge hlt
    have hid0 : ¬ id = 0 := by omega
    unfold getPage at hg
    rw [if_neg hid0] at hg
    obtain ⟨hc, hget, hg⟩ := exceptBind_ok _ _ _ hg
    obtain ⟨hit, c1'⟩ := hc
    have hsame := hmiss.symm.trans hget
    simp only [Except.ok.injEq, Prod.mk.injEq] at hsame
    obtain ⟨hnone, -⟩ := hsame
    subst hnone
    obtain ⟨c2, hput, hg⟩ := exceptBind_ok _ _ _ hg
    simp only [Except.ok.injEq, Prod.mk.injEq] at hg
    obtain ⟨hr, -⟩ := hg
    have hr' : r = (s.fileData.drop ((id - 1) * s.pageSize)).take s.pageSize ++
        List.replicate (s.pageSize -
          fileReadLen s.fileData ((id - 1) * s.pageSize) s.pageSize) 0 := hr.symm
    subst hr'
    have hslen : ((s.fileData.drop ((id - 1) * s.pageSize)).take s.pageSize).length =
        fileReadLen s.fileData ((id - 1) * s.pageSize) s.pageSize := by
      simp [List.length_take, List.length_drop, fileReadLen]
    rw [getD_append_right_zero _ _ i (by rw [hslen]; exact hge)]
    exact getD_replicate_zero _ _

/-- Witness for C7: on the fresh pager (page size 512, empty file, cache
capacity 2, no operations run), `GetPage 0` errors without touching the
state. -/
theorem getPage_contract_witness :
    runPager (freshPager 512 [] 2) [] = .ok (freshPager 512 [] 2) ∧
    getPage (freshPager 512 [] 2) 0 =
      .ok (.error .invalidPageId, freshPager 512 [] 2) :=
  ⟨rfl, (getPage_contract 512 [] 2 [] (freshPager 512 [] 2) 1 rfl).1⟩
